import Mathlib

/-!
# Verification of the Claudian agent session and trust-enforcement layer

Shallow embedding of the security-relevant core of the Claudian Obsidian
plugin: path containment (PathGuard), the command blocklist, the approval
store and controller, session-expiry recovery, and the async subagent
state machine (`AsyncSubagentManager`, embedded from the source file).
Components whose implementation file is not part of the provided sources
(`ClaudianService`) are modelled from the specification document, as noted
on each definition.
-/

set_option autoImplicit false

namespace Claudian

/-! ## String helpers -/

/-- Boolean list-prefix test. -/
def listIsPrefixOf : List Char → List Char → Bool
  | [], _ => true
  | _ :: _, [] => false
  | a :: as, b :: bs => a == b && listIsPrefixOf as bs

/-- Boolean contiguous-sublist test. -/
def listIsInfixOf (needle : List Char) : List Char → Bool
  | [] => needle.isEmpty
  | b :: bs => listIsPrefixOf needle (b :: bs) || listIsInfixOf needle bs

/-- Substring containment test: does `hay` contain `needle` as a contiguous
substring?  Mirrors JavaScript `String.prototype.includes`. -/
def strContains (hay needle : String) : Bool :=
  listIsInfixOf needle.toList hay.toList

/-- ASCII lower-casing of a string, mirroring JavaScript `toLowerCase`
on the ASCII range (the only range exercised by the code). -/
def strLower (s : String) : String :=
  String.mk (s.toList.map Char.toLower)

/-! ## PathGuard

Modelled from the spec: the implementation lives in `ClaudianService.ts`,
which is not among the provided sources; only its tests are.  The spec says
the guard canonicalizes both the vault root and the candidate path
(resolving `..` and `.` segments) before the containment comparison, and
that a candidate equal to or nested under the canonical root is inside. -/

/-- Split a character list on a separator character. -/
def splitChars (sep : Char) : List Char → List (List Char)
  | [] => [[]]
  | c :: rest =>
    let r := splitChars sep rest
    if c == sep then [] :: r
    else
      match r with
      | [] => [[c]]
      | seg :: segs => (c :: seg) :: segs

/-- Split a path string on `/` into its non-empty segments. -/
def pathSegments (p : String) : List String :=
  ((splitChars (Char.ofNat 47) p.toList).filter (fun s => !s.isEmpty)).map String.mk

/-- Resolve `.` and `..` segments, as `path.resolve`/`realpath` do for an
absolute path: `.` is dropped, `..` pops the previous segment (and is
dropped at the root). -/
def resolveSegments (segs : List String) : List String :=
  segs.foldl
    (fun acc s =>
      if s = "." then acc
      else if s = ".." then acc.dropLast
      else acc ++ [s])
    []

/-- Canonical form of an absolute path: its resolved segment list. -/
def canonicalPath (p : String) : List String :=
  resolveSegments (pathSegments p)

/-- Modelled from the spec: `isInsideWorkspace` of the missing
`ClaudianService.ts` — canonicalize root and candidate, then test that the
candidate equals the root or is nested under it. -/
def isInsideWorkspace (root p : String) : Bool :=
  let r := canonicalPath root
  let c := canonicalPath p
  r = c || r.isPrefixOf c

/-! ## CommandBlocklist

Modelled from the spec: `shouldBlockCommand` of the missing
`ClaudianService.ts`.  Each pattern is tried as a case-sensitive regular
expression against the full command; a pattern that fails to compile is
used as a plain substring test instead.  The JavaScript regular-expression
engine is abstracted by two parameters: `compiles` says whether a pattern
is a valid regex, `rmatch` is the engine's match test. -/

/-- One blocklist pattern against one command, under a regex oracle. -/
def patternMatches (compiles : String → Bool) (rmatch : String → String → Bool)
    (pat cmd : String) : Bool :=
  if compiles pat then rmatch pat cmd else strContains cmd pat

/-- Modelled from the spec: `shouldBlockCommand(command, patterns, enabled)`
of the missing `ClaudianService.ts`.  Disabled blocklist never blocks;
otherwise the first matching pattern blocks. -/
def shouldBlockCommand (compiles : String → Bool) (rmatch : String → String → Bool)
    (enabled : Bool) (patterns : List String) (cmd : String) : Bool :=
  enabled && patterns.any (fun p => patternMatches compiles rmatch p cmd)

/-! ## Stream chunks

The typed chunk protocol (spec section 3, `StreamChunk`): a tagged variant
over text / thinking / tool_use / tool_result / blocked / error / done. -/

/-- The normalized chunk protocol emitted by the stream transformer. -/
inductive StreamChunk
  | text (content : String)
  | thinking (content : String)
  | toolUse (id : String) (name : String)
  | toolResult (id : String) (content : String)
  | blocked (id : Option String) (content : String)
  | error (content : String)
  | done
deriving DecidableEq, Repr

/-- Is this chunk a `tool_use` chunk? -/
def StreamChunk.isToolUse : StreamChunk → Bool
  | .toolUse _ _ => true
  | _ => false

/-- Modelled from the spec: the vault-containment gate applied by the missing
`ClaudianService.ts` to a file-path tool use — on a path outside the vault it
short-circuits with a `blocked` chunk whose message mentions being outside
the vault; otherwise the `tool_use` chunk is emitted. -/
def fileToolGate (root p id name : String) : List StreamChunk :=
  if isInsideWorkspace root p then [StreamChunk.toolUse id name]
  else
    [StreamChunk.blocked (some id)
      ("File access blocked: " ++ (p ++ " is outside the vault."))]

/-! ## Supporting lemmas about substring containment -/

theorem listIsInfixOf_append_left (n y : List Char) (x : List Char)
    (h : listIsInfixOf n y = true) : listIsInfixOf n (x ++ y) = true := by
  induction x with
  | nil => simpa using h
  | cons c cs ih =>
    simp only [List.cons_append, listIsInfixOf, Bool.or_eq_true]
    exact Or.inr ih

theorem strContains_append_right (a b n : String)
    (h : strContains b n = true) : strContains (a ++ b) n = true := by
  unfold strContains at h ⊢
  show listIsInfixOf n.data (a ++ b).data = true
  rw [String.data_append]
  exact listIsInfixOf_append_left _ _ _ h

/-! ## Claim C1 -/

/-- C1: the workspace-containment check canonicalizes both the vault root
and the candidate (resolving `..` and `.`) before comparing, so paths with
the same canonical form are judged identically; `/root/a/../b` against root
`/root` behaves exactly like `/root/b` (and is inside); and a tool-use whose
canonical path escapes the vault is denied with a `blocked` chunk whose
message mentions being outside the vault (no `tool_use` chunk). -/
theorem C1_workspace_containment :
    (∀ root p q, canonicalPath p = canonicalPath q →
      isInsideWorkspace root p = isInsideWorkspace root q)
    ∧ isInsideWorkspace "/root" "/root/a/../b" = isInsideWorkspace "/root" "/root/b"
    ∧ isInsideWorkspace "/root" "/root/a/../b" = true
    ∧ (∀ root p id name, isInsideWorkspace root p = false →
      ∃ msg, fileToolGate root p id name = [StreamChunk.blocked (some id) msg]
        ∧ strContains msg "outside the vault" = true) := by
  refine ⟨?_, by decide, by decide, ?_⟩
  · intro root p q h
    unfold isInsideWorkspace
    rw [h]
  · intro root p id name h
    refine ⟨"File access blocked: " ++ (p ++ " is outside the vault."), ?_, ?_⟩
    · unfold fileToolGate
      rw [h]
      simp
    · exact strContains_append_right _ _ _
        (strContains_append_right _ _ _ (by decide))

/-- Witness for C1 at concrete inputs: inserting `./` does not change the
verdict, and a concrete escaping `Read` is blocked with the message. -/
theorem C1_workspace_containment_witness :
    isInsideWorkspace "/r" "/r/./x" = isInsideWorkspace "/r" "/r/x"
    ∧ ∃ msg, fileToolGate "/test/vault/path" "/etc/passwd" "read-outside" "Read"
        = [StreamChunk.blocked (some "read-outside") msg]
        ∧ strContains msg "outside the vault" = true :=
  ⟨C1_workspace_containment.1 "/r" "/r/./x" "/r/x" (by decide),
   C1_workspace_containment.2.2.2 "/test/vault/path" "/etc/passwd"
     "read-outside" "Read" (by decide)⟩

/-! ## Claim C2 -/

/-- C2: with `enabled = false` the blocklist never blocks; with
`enabled = true` it blocks whenever some pattern matches the command as a
regular expression or — when the pattern does not compile — as a plain
substring; and an arbitrary (e.g. invalid) pattern in the middle of the
list never prevents evaluation of the later patterns. -/
theorem C2_blocklist_matching :
    ∀ (compiles : String → Bool) (rmatch : String → String → Bool)
      (patterns : List String) (c : String),
    shouldBlockCommand compiles rmatch false patterns c = false
    ∧ (∀ p ∈ patterns,
        (compiles p = true ∧ rmatch p c = true)
          ∨ (compiles p = false ∧ strContains c p = true) →
        shouldBlockCommand compiles rmatch true patterns c = true)
    ∧ (∀ ps₁ bad ps₂,
        shouldBlockCommand compiles rmatch true (ps₁ ++ bad :: ps₂) c
          = (shouldBlockCommand compiles rmatch true ps₁ c
             || patternMatches compiles rmatch bad c
             || shouldBlockCommand compiles rmatch true ps₂ c)) := by
  intro compiles rmatch patterns c
  refine ⟨rfl, ?_, ?_⟩
  · intro p hp hmatch
    have hm : patternMatches compiles rmatch p c = true := by
      unfold patternMatches
      rcases hmatch with ⟨h1, h2⟩ | ⟨h1, h2⟩
      · rw [h1]; simpa using h2
      · rw [h1]; simpa using h2
    unfold shouldBlockCommand
    simp only [Bool.true_and, List.any_eq_true]
    exact ⟨p, hp, hm⟩
  · intro ps₁ bad ps₂
    unfold shouldBlockCommand
    simp [List.any_append, Bool.or_assoc]

/-- Witness for C2 at concrete inputs: the invalid-regex pattern
`[invalid regex` (treated as a substring because it does not compile)
blocks the command from the test suite. -/
theorem C2_blocklist_matching_witness :
    shouldBlockCommand (fun _ => false) (fun _ _ => false) true
      ["[invalid regex"] "something with [invalid regex inside" = true :=
  (C2_blocklist_matching (fun _ => false) (fun _ _ => false)
      ["[invalid regex"] "something with [invalid regex inside").2.1
    "[invalid regex" (by simp) (Or.inr ⟨rfl, by decide⟩)

/-! ## Tool inputs

A structured view of the untyped `Record<string, unknown>` tool inputs:
only the fields the modelled code reads are represented. -/

/-- The fields of a tool-use input that the core reads. -/
structure ToolInput where
  command : Option String := none
  file_path : Option String := none
  path : Option String := none
  notebook_path : Option String := none
  pattern : Option String := none
  description : Option String := none
  run_in_background : Bool := false
  agentId : Option String := none
  agent_id : Option String := none
deriving DecidableEq, Repr

/-- JavaScript `a || b` on optional strings: an absent or empty string is
falsy and falls through to the second operand. -/
def jsOrStr (a b : Option String) : Option String :=
  match a with
  | some s => if s == "" then b else some s
  | none => b

/-! ## ApprovalStore

Modelled from the spec: the approval memory of the missing
`ClaudianService.ts` — pattern derivation is tool-specific, matching is
exact for command-like patterns and prefix for path-like patterns,
`always`-scoped approvals live in durable settings, `session`-scoped ones
in volatile memory cleared by `resetSession`. -/

/-- Scope of an approval. -/
inductive ApprovalScope
  | session
  | always
deriving DecidableEq, Repr

/-- A stored approval (spec data model `Permission`). -/
structure Permission where
  toolName : String
  pattern : String
  approvedAt : Nat
  scope : ApprovalScope
deriving DecidableEq, Repr

/-- The file-oriented tools, whose approval patterns are file paths. -/
def fileTools : List String := ["Read", "Write", "Edit", "NotebookEdit"]

/-- The file-mutating tools, for which a denial additionally cancels any
staged file edit. -/
def fileMutatingTools : List String := ["Write", "Edit", "NotebookEdit"]

/-- Modelled from the spec: `getActionPattern` of the missing
`ClaudianService.ts` — file tools derive the pattern from the file path,
search tools from their pattern argument, `Bash` from the command string. -/
def getActionPattern (tool : String) (input : ToolInput) : String :=
  if tool == "Bash" then input.command.getD ""
  else if fileTools.contains tool then input.file_path.getD ""
  else if tool == "Glob" || tool == "Grep" then input.pattern.getD ""
  else ""

/-- Boolean string-prefix test (kernel-reducible). -/
def strIsPrefixOf (p s : String) : Bool :=
  listIsPrefixOf p.toList s.toList

/-- Modelled from the spec: approval-pattern matching — path-like patterns
match by prefix, command-like (and search) patterns by exact equality. -/
def approvalPatternMatches (tool stored derived : String) : Bool :=
  if fileTools.contains tool then strIsPrefixOf stored derived
  else stored == derived

/-- The approval memory: durable (`always`) approvals from settings plus
volatile session approvals. -/
structure ApprovalState where
  settingsApprovedActions : List Permission
  sessionApprovedActions : List Permission
deriving Repr

/-- The empty approval memory. -/
def ApprovalState.empty : ApprovalState :=
  { settingsApprovedActions := [], sessionApprovedActions := [] }

/-- Modelled from the spec: `approveAction(tool, input, scope)` of the
missing `ClaudianService.ts` — records a permission derived from the input
into the durable list (`always`) or the volatile list (`session`). -/
def approveAction (st : ApprovalState) (tool : String) (input : ToolInput)
    (scope : ApprovalScope) (now : Nat) : ApprovalState :=
  let perm : Permission :=
    { toolName := tool, pattern := getActionPattern tool input,
      approvedAt := now, scope := scope }
  match scope with
  | .always => { st with settingsApprovedActions := st.settingsApprovedActions ++ [perm] }
  | .session => { st with sessionApprovedActions := st.sessionApprovedActions ++ [perm] }

/-- Modelled from the spec: `isActionApproved(tool, input)` of the missing
`ClaudianService.ts` — looks the derived pattern up among both durable and
session approvals for the same tool. -/
def isActionApproved (st : ApprovalState) (tool : String) (input : ToolInput) : Bool :=
  let derived := getActionPattern tool input
  (st.settingsApprovedActions ++ st.sessionApprovedActions).any
    (fun a => a.toolName == tool && approvalPatternMatches tool a.pattern derived)

/-- Modelled from the spec: the approval-related effect of `resetSession` —
all session-scoped approvals are cleared, durable ones are kept. -/
def resetSessionApprovals (st : ApprovalState) : ApprovalState :=
  { st with sessionApprovedActions := [] }

/-! ## Supporting lemmas for approval matching -/

theorem listIsPrefixOf_refl (l : List Char) : listIsPrefixOf l l = true := by
  induction l with
  | nil => rfl
  | cons c cs ih => simp [listIsPrefixOf, ih]

theorem approvalPatternMatches_refl (tool s : String) :
    approvalPatternMatches tool s s = true := by
  unfold approvalPatternMatches strIsPrefixOf
  split
  · exact listIsPrefixOf_refl _
  · simp

theorem isActionApproved_approve_self (st : ApprovalState) (tool : String)
    (input : ToolInput) (scope : ApprovalScope) (now : Nat) :
    isActionApproved (approveAction st tool input scope now) tool input = true := by
  unfold isActionApproved approveAction
  cases scope <;>
    simp [List.any_append, approvalPatternMatches_refl]

/-! ## Claim C4 -/

/-- C4: approval round-trip and reset scoping — an `always` approval is
immediately queryable; after `resetSession` a `session`-scoped approval
made before the reset no longer answers true (started from an empty
store), while an `always`-scoped one still does, and `resetSession` keeps
the durable list untouched while clearing the volatile list. -/
theorem C4_approval_roundtrip_reset :
    (∀ st tool input now,
      isActionApproved (approveAction st tool input .always now) tool input = true)
    ∧ (∀ tool input now,
      isActionApproved
        (resetSessionApprovals (approveAction .empty tool input .session now))
        tool input = false)
    ∧ (∀ st tool input now,
      isActionApproved
        (resetSessionApprovals (approveAction st tool input .always now))
        tool input = true)
    ∧ (∀ st, (resetSessionApprovals st).settingsApprovedActions
          = st.settingsApprovedActions
        ∧ (resetSessionApprovals st).sessionApprovedActions = []) := by
  refine ⟨?_, ?_, ?_, ?_⟩
  · intro st tool input now
    exact isActionApproved_approve_self st tool input .always now
  · intro tool input now
    simp [isActionApproved, approveAction, resetSessionApprovals, ApprovalState.empty]
  · intro st tool input now
    simp [isActionApproved, approveAction, resetSessionApprovals,
      List.any_append, approvalPatternMatches_refl]
  · intro st
    exact ⟨rfl, rfl⟩

theorem isActionApproved_single_bash (s c : String) (now : Nat) :
    isActionApproved
      (approveAction .empty "Bash" { command := some s } .session now)
      "Bash" { command := some c } = (s == c) := by
  simp [isActionApproved, approveAction, ApprovalState.empty, getActionPattern,
    approvalPatternMatches, fileTools]

theorem isActionApproved_single_read (s p : String) (now : Nat) :
    isActionApproved
      (approveAction .empty "Read" { file_path := some s } .always now)
      "Read" { file_path := some p } = strIsPrefixOf s p := by
  simp [isActionApproved, approveAction, ApprovalState.empty, getActionPattern,
    approvalPatternMatches, fileTools]

/-! ## Claim C5 -/

/-- C5: approval matching is tool-shape dependent — a `Bash` approval with
pattern `s` approves exactly the inputs whose command equals `s`, while a
`Read` approval with pattern `s` approves exactly the inputs whose file
path starts with `s`; in particular `ls -la` does not approve `ls -l`, and
`/test/vault/` approves `/test/vault/notes/file.md` but not
`/other/path/file.md`. -/
theorem C5_approval_matching_shape :
    (∀ s c now,
      isActionApproved
        (approveAction .empty "Bash" { command := some s } .session now)
        "Bash" { command := some c } = (s == c))
    ∧ (∀ s p now,
      isActionApproved
        (approveAction .empty "Read" { file_path := some s } .always now)
        "Read" { file_path := some p } = strIsPrefixOf s p)
    ∧ (∀ now,
      isActionApproved
        (approveAction .empty "Bash" { command := some "ls -la" } .session now)
        "Bash" { command := some "ls -l" } = false)
    ∧ (∀ now,
      isActionApproved
        (approveAction .empty "Read" { file_path := some "/test/vault/" } .always now)
        "Read" { file_path := some "/test/vault/notes/file.md" } = true
      ∧ isActionApproved
        (approveAction .empty "Read" { file_path := some "/test/vault/" } .always now)
        "Read" { file_path := some "/other/path/file.md" } = false) := by
  refine ⟨isActionApproved_single_bash, isActionApproved_single_read, ?_, ?_⟩
  · intro now
    rw [isActionApproved_single_bash]
    decide
  · intro now
    refine ⟨?_, ?_⟩ <;> rw [isActionApproved_single_read] <;> decide

/-! ## ApprovalController (safe-mode callback)

Modelled from the spec: `createSafeModeCallback` of the missing
`ClaudianService.ts`.  The permission decision flow consults the command
blocklist and the path guard first (auto-block), then auto-allows in
`yolo` mode, then consults the approval store, and only then escalates to
the interactive approval callback; with no callback registered the request
is denied with a descriptive message rather than hanging. -/

/-- Permission mode from settings. -/
inductive PermMode
  | yolo
  | normal
deriving DecidableEq, Repr

/-- Decision returned by the interactive approval callback. -/
inductive ApprovalDecision
  | allow
  | allowAlways
  | deny
deriving DecidableEq, Repr

/-- Outcome of consulting the interactive approval callback: `none` means
no callback is registered; `some (.error ())` means the callback threw;
`some (.ok d)` means it returned decision `d`. -/
def CallbackOutcome : Type := Option (Except Unit ApprovalDecision)

/-- Behavior field of a permission result. -/
inductive PermBehavior
  | allow
  | deny
deriving DecidableEq, Repr

/-- The result handed back to the agent runtime for a tool-use request. -/
structure PermissionResult where
  behavior : PermBehavior
  message : Option String := none
  interrupt : Bool := false
deriving DecidableEq, Repr

/-- Whitespace test used by the shell tokenizer. -/
def isSpaceChar (c : Char) : Bool :=
  c == ' ' || c == '\t' || c == '\n' || c == '\r'

/-- Read a quoted token: content up to the closing quote, and the rest. -/
def readQuoted (q : Char) : List Char → (List Char × List Char)
  | [] => ([], [])
  | c :: cs =>
    if c == q then ([], cs)
    else
      let r := readQuoted q cs
      (c :: r.1, r.2)

/-- Read a bare token: content up to the next whitespace, and the rest. -/
def readBare : List Char → (List Char × List Char)
  | [] => ([], [])
  | c :: cs =>
    if isSpaceChar c then ([], c :: cs)
    else
      let r := readBare cs
      (c :: r.1, r.2)

/-- Fuel-driven shell-command tokenizer: whitespace-separated tokens with
double- and single-quoted tokens kept whole. -/
def tokenizeCmd : Nat → List Char → List (List Char)
  | 0, _ => []
  | _ + 1, [] => []
  | fuel + 1, c :: cs =>
    if isSpaceChar c then tokenizeCmd fuel cs
    else if c == Char.ofNat 34 || c == Char.ofNat 39 then
      let r := readQuoted c cs
      r.1 :: tokenizeCmd fuel r.2
    else
      let r := readBare (c :: cs)
      r.1 :: tokenizeCmd fuel r.2

/-- Does a token look like a path: absolute, explicitly relative, or
tilde-prefixed? -/
def isPathLikeToken (t : List Char) : Bool :=
  listIsPrefixOf "/".toList t || listIsPrefixOf "./".toList t
    || listIsPrefixOf "../".toList t || listIsPrefixOf "~".toList t

/-- Modelled from the spec: `extractPathCandidates(commandString)` of the
missing `ClaudianService.ts` — recognizes double-quoted, single-quoted,
bare relative (`./x`, `../x`), absolute and tilde paths as substrings of a
shell command line. -/
def extractPathCandidates (cmd : String) : List String :=
  let toks := tokenizeCmd (cmd.toList.length + 1) cmd.toList
  (toks.filter isPathLikeToken).map String.mk

/-- Modelled from the spec: resolution of a path candidate against the
vault root and the user home — `~` expands to home, relative candidates
resolve against the vault root. -/
def resolveCandidate (root home : String) (p : String) : String :=
  if strIsPrefixOf "~" p then home ++ String.mk (p.toList.drop 1)
  else if strIsPrefixOf "/" p then p
  else root ++ "/" ++ p

/-- All path candidates of a shell command stay inside the vault. -/
def bashPathsOk (root home : String) (cmd : String) : Bool :=
  (extractPathCandidates cmd).all
    (fun p => isInsideWorkspace root (resolveCandidate root home p))

/-- The path a file-oriented tool-use targets, if any. -/
def pathToCheck (tool : String) (input : ToolInput) : Option String :=
  if tool == "Read" || tool == "Write" || tool == "Edit" then input.file_path
  else if tool == "NotebookEdit" then jsOrStr input.notebook_path input.file_path
  else if tool == "Glob" || tool == "LS" then input.path
  else none

/-- Settings and collaborators the permission flow consults. -/
structure ServiceConfig where
  vaultRoot : String
  homeDir : String
  permissionMode : PermMode
  enableBlocklist : Bool
  blockedCommands : List String
  regexCompiles : String → Bool
  regexMatch : String → String → Bool

/-- The interactive tail of the safe-mode decision flow: yolo auto-allow,
approval-store hit, then the interactive callback (deny with a descriptive
message when none is registered; deny with `interrupt` when it throws). -/
def canUseToolInteractive (cfg : ServiceConfig) (st : ApprovalState)
    (cb : CallbackOutcome) (tool : String) (input : ToolInput) (now : Nat)
    (cancels : List (String × ToolInput)) :
    PermissionResult × ApprovalState × List (String × ToolInput) :=
  if cfg.permissionMode == .yolo then
    ({ behavior := .allow }, st, [])
  else if isActionApproved st tool input then
    ({ behavior := .allow }, st, [])
  else
    match cb with
    | none =>
      (({ behavior := .deny,
          message := some "No approval handler available. Denying tool use for safety.",
          interrupt := false } : PermissionResult), st, cancels)
    | some (.error _) =>
      (({ behavior := .deny, message := some "Approval request failed.",
          interrupt := true } : PermissionResult), st, cancels)
    | some (.ok .deny) =>
      (({ behavior := .deny, message := some "User denied this action.",
          interrupt := false } : PermissionResult), st, cancels)
    | some (.ok .allow) =>
      ({ behavior := .allow }, approveAction st tool input .session now, [])
    | some (.ok .allowAlways) =>
      ({ behavior := .allow }, approveAction st tool input .always now, [])

/-- Modelled from the spec: the decision flow of `createSafeModeCallback`
in the missing `ClaudianService.ts`.  Returns the permission result, the
updated approval store, and the file-edit-cancellation notifications
(tool name and input) sent to the collaborator. -/
def canUseTool (cfg : ServiceConfig) (st : ApprovalState) (cb : CallbackOutcome)
    (tool : String) (input : ToolInput) (now : Nat) :
    PermissionResult × ApprovalState × List (String × ToolInput) :=
  let cancels := if fileMutatingTools.contains tool then [(tool, input)] else []
  let denyWith := fun (msg : String) (intr : Bool) =>
    (({ behavior := .deny, message := some msg, interrupt := intr } : PermissionResult),
      st, cancels)
  let cmd := input.command.getD ""
  if tool == "Bash"
      && shouldBlockCommand cfg.regexCompiles cfg.regexMatch cfg.enableBlocklist
           cfg.blockedCommands cmd then
    denyWith ("Command blocked: it matches a blocked command pattern: "
      ++ ((cfg.blockedCommands.filter
            (fun p => patternMatches cfg.regexCompiles cfg.regexMatch p cmd)).headD ""))
      false
  else if tool == "Bash" && !bashPathsOk cfg.vaultRoot cfg.homeDir cmd then
    denyWith "Command blocked: it references a path outside the vault." false
  else
    match pathToCheck tool input with
    | some p =>
      if !isInsideWorkspace cfg.vaultRoot p then
        denyWith ("File access blocked: " ++ (p ++ " is outside the vault.")) false
      else canUseToolInteractive cfg st cb tool input now cancels
    | none => canUseToolInteractive cfg st cb tool input now cancels

/-- Chunks the stream transformer emits for a gated tool-use: a permitted
call surfaces as a `tool_use` chunk, a denied one short-circuits with a
`blocked` chunk carrying the denial message. -/
def toolGateChunks (res : PermissionResult) (id tool : String) : List StreamChunk :=
  match res.behavior with
  | .allow => [StreamChunk.toolUse id tool]
  | .deny => [StreamChunk.blocked (some id) (res.message.getD "")]

/-- Under no-auto-block hypotheses the decision flow reaches its
interactive tail. -/
theorem canUseTool_eq_interactive (cfg : ServiceConfig) (st : ApprovalState)
    (cb : CallbackOutcome) (tool : String) (input : ToolInput) (now : Nat)
    (h1 : tool = "Bash" → shouldBlockCommand cfg.regexCompiles cfg.regexMatch
      cfg.enableBlocklist cfg.blockedCommands (input.command.getD "") = false)
    (h2 : tool = "Bash" → bashPathsOk cfg.vaultRoot cfg.homeDir
      (input.command.getD "") = true)
    (h3 : ∀ p, pathToCheck tool input = some p →
      isInsideWorkspace cfg.vaultRoot p = true) :
    canUseTool cfg st cb tool input now
      = canUseToolInteractive cfg st cb tool input now
          (if fileMutatingTools.contains tool then [(tool, input)] else []) := by
  unfold canUseTool
  by_cases ht : tool = "Bash"
  · subst ht
    simp only [h1 rfl, h2 rfl]
    simp [pathToCheck]
  · have hb : (tool == "Bash") = false := by
      simp [ht]
    cases hp : pathToCheck tool input with
    | none => simp [hb, hp]
    | some p => simp [hb, hp, h3 p hp]

/-! ## Claim C3 -/

/-- C3: in `normal` mode with no approval callback registered, a tool-use
that is neither pre-approved nor auto-blocked is denied (never hangs): the
permission result is a deny whose message mentions "No approval handler
available", the emitted chunk sequence is a single `blocked` chunk with
that message, and no `tool_use` chunk is emitted for the call. -/
theorem C3_no_callback_denies (cfg : ServiceConfig) (st : ApprovalState)
    (input : ToolInput) (id : String) (now : Nat)
    (hmode : cfg.permissionMode = .normal)
    (hblock : shouldBlockCommand cfg.regexCompiles cfg.regexMatch
      cfg.enableBlocklist cfg.blockedCommands (input.command.getD "") = false)
    (hpaths : bashPathsOk cfg.vaultRoot cfg.homeDir (input.command.getD "") = true)
    (happr : isActionApproved st "Bash" input = false) :
    (canUseTool cfg st none "Bash" input now).1.behavior = .deny
    ∧ (∃ msg, (canUseTool cfg st none "Bash" input now).1.message = some msg
        ∧ strContains msg "No approval handler available" = true
        ∧ toolGateChunks (canUseTool cfg st none "Bash" input now).1 id "Bash"
            = [StreamChunk.blocked (some id) msg])
    ∧ (toolGateChunks (canUseTool cfg st none "Bash" input now).1 id "Bash").all
        (fun c => !c.isToolUse) = true := by
  have heq := canUseTool_eq_interactive cfg st none "Bash" input now
    (fun _ => hblock) (fun _ => hpaths)
    (fun p hp => by simp [pathToCheck] at hp)
  rw [heq]
  unfold canUseToolInteractive
  simp only [hmode, happr]
  refine ⟨by simp, ⟨"No approval handler available. Denying tool use for safety.",
    by simp, by decide, by simp [toolGateChunks]⟩, by simp [toolGateChunks, StreamChunk.isToolUse]⟩

/-- Witness for C3: a concrete configuration (normal mode, the test
blocklist treated as plain substrings, the test vault root) and the
`Bash {command: "ls"}` tool-use from the spec scenario. -/
theorem C3_no_callback_denies_witness :
    (canUseTool
      { vaultRoot := "/test/vault/path", homeDir := "/home/user",
        permissionMode := .normal, enableBlocklist := true,
        blockedCommands := ["rm -rf", "chmod 777", "mkfs", "dd if="],
        regexCompiles := fun _ => false, regexMatch := fun _ _ => false }
      .empty none "Bash" { command := some "ls" } 0).1.behavior = .deny
    ∧ (∃ msg, (canUseTool
      { vaultRoot := "/test/vault/path", homeDir := "/home/user",
        permissionMode := .normal, enableBlocklist := true,
        blockedCommands := ["rm -rf", "chmod 777", "mkfs", "dd if="],
        regexCompiles := fun _ => false, regexMatch := fun _ _ => false }
      .empty none "Bash" { command := some "ls" } 0).1.message = some msg
        ∧ strContains msg "No approval handler available" = true
        ∧ toolGateChunks (canUseTool
      { vaultRoot := "/test/vault/path", homeDir := "/home/user",
        permissionMode := .normal, enableBlocklist := true,
        blockedCommands := ["rm -rf", "chmod 777", "mkfs", "dd if="],
        regexCompiles := fun _ => false, regexMatch := fun _ _ => false }
      .empty none "Bash" { command := some "ls" } 0).1 "tool-123" "Bash"
            = [StreamChunk.blocked (some "tool-123") msg])
    ∧ (toolGateChunks (canUseTool
      { vaultRoot := "/test/vault/path", homeDir := "/home/user",
        permissionMode := .normal, enableBlocklist := true,
        blockedCommands := ["rm -rf", "chmod 777", "mkfs", "dd if="],
        regexCompiles := fun _ => false, regexMatch := fun _ _ => false }
      .empty none "Bash" { command := some "ls" } 0).1 "tool-123" "Bash").all
        (fun c => !c.isToolUse) = true :=
  C3_no_callback_denies _ _ _ "tool-123" 0 rfl (by decide) (by decide) (by decide)

/-! ## Claim C6 -/

/-- C6: if the interactive approval callback throws, the request resolves
as a denial carrying `interrupt = true` with message "Approval request
failed." — distinct from an ordinary user deny, which carries no interrupt
and message "User denied this action." — and for file-mutating tools the
file-edit-cancellation collaborator is notified with the same tool name
and input on both kinds of denial. -/
theorem C6_callback_error_interrupts (cfg : ServiceConfig) (st : ApprovalState)
    (tool : String) (input : ToolInput) (now : Nat)
    (hmode : cfg.permissionMode = .normal)
    (h1 : tool = "Bash" → shouldBlockCommand cfg.regexCompiles cfg.regexMatch
      cfg.enableBlocklist cfg.blockedCommands (input.command.getD "") = false)
    (h2 : tool = "Bash" → bashPathsOk cfg.vaultRoot cfg.homeDir
      (input.command.getD "") = true)
    (h3 : ∀ p, pathToCheck tool input = some p →
      isInsideWorkspace cfg.vaultRoot p = true)
    (happr : isActionApproved st tool input = false) :
    (canUseTool cfg st (some (.error ())) tool input now).1
      = { behavior := .deny, message := some "Approval request failed.",
          interrupt := true }
    ∧ (canUseTool cfg st (some (.ok .deny)) tool input now).1
      = { behavior := .deny, message := some "User denied this action.",
          interrupt := false }
    ∧ (fileMutatingTools.contains tool = true →
        (canUseTool cfg st (some (.error ())) tool input now).2.2 = [(tool, input)]
        ∧ (canUseTool cfg st (some (.ok .deny)) tool input now).2.2 = [(tool, input)]) := by
  rw [canUseTool_eq_interactive cfg st _ tool input now h1 h2 h3,
    canUseTool_eq_interactive cfg st _ tool input now h1 h2 h3]
  unfold canUseToolInteractive
  simp only [hmode, happr]
  refine ⟨by simp, by simp, fun hmut => ?_⟩
  have hmem : tool ∈ fileMutatingTools := by simpa using hmut
  simp [hmem]

/-- Witness for C6: the callback-throws and user-deny outcomes for a
concrete `Write` tool-use inside the vault, which also notifies the
file-edit-cancellation collaborator. -/
theorem C6_callback_error_interrupts_witness :
    (canUseTool
      { vaultRoot := "/test/vault/path", homeDir := "/home/user",
        permissionMode := .normal, enableBlocklist := true,
        blockedCommands := ["rm -rf"],
        regexCompiles := fun _ => false, regexMatch := fun _ _ => false }
      .empty (some (.error ())) "Write"
      { file_path := some "/test/vault/path/notes/a.md" } 0).1
      = { behavior := .deny, message := some "Approval request failed.",
          interrupt := true }
    ∧ (canUseTool
      { vaultRoot := "/test/vault/path", homeDir := "/home/user",
        permissionMode := .normal, enableBlocklist := true,
        blockedCommands := ["rm -rf"],
        regexCompiles := fun _ => false, regexMatch := fun _ _ => false }
      .empty (some (.ok .deny)) "Write"
      { file_path := some "/test/vault/path/notes/a.md" } 0).1
      = { behavior := .deny, message := some "User denied this action.",
          interrupt := false }
    ∧ ((canUseTool
      { vaultRoot := "/test/vault/path", homeDir := "/home/user",
        permissionMode := .normal, enableBlocklist := true,
        blockedCommands := ["rm -rf"],
        regexCompiles := fun _ => false, regexMatch := fun _ _ => false }
      .empty (some (.error ())) "Write"
      { file_path := some "/test/vault/path/notes/a.md" } 0).2.2
      = [("Write", { file_path := some "/test/vault/path/notes/a.md" })]
    ∧ (canUseTool
      { vaultRoot := "/test/vault/path", homeDir := "/home/user",
        permissionMode := .normal, enableBlocklist := true,
        blockedCommands := ["rm -rf"],
        regexCompiles := fun _ => false, regexMatch := fun _ _ => false }
      .empty (some (.ok .deny)) "Write"
      { file_path := some "/test/vault/path/notes/a.md" } 0).2.2
      = [("Write", { file_path := some "/test/vault/path/notes/a.md" })]) := by
  have h := C6_callback_error_interrupts
    { vaultRoot := "/test/vault/path", homeDir := "/home/user",
      permissionMode := .normal, enableBlocklist := true,
      blockedCommands := ["rm -rf"],
      regexCompiles := fun _ => false, regexMatch := fun _ _ => false }
    .empty "Write" { file_path := some "/test/vault/path/notes/a.md" } 0
    rfl (fun h => absurd h (by decide)) (fun h => absurd h (by decide))
    (by intro p hp; simp [pathToCheck] at hp; subst hp; decide)
    (by decide)
  exact ⟨h.1, h.2.1, (h.2.2 (by decide)).1, (h.2.2 (by decide)).2⟩

/-! ## SessionManager and session-expiry recovery

Modelled from the spec: the session lifecycle of the missing
`ClaudianService.ts` — expiry detection by case-insensitive substring
matching against a fixed phrase set, history rebuilding into a single
textual prompt, and a single retry without a resume id. -/

/-- Role of a conversation history entry. -/
inductive ChatRole
  | user
  | assistant
deriving DecidableEq, Repr

/-- A tool call recorded in a history entry. -/
structure HistoryToolCall where
  name : String
  status : String
  result : Option String := none
deriving DecidableEq, Repr

/-- A conversation history entry supplied to the recovery rebuilder. -/
structure HistoryEntry where
  role : ChatRole
  content : String
  toolCalls : List HistoryToolCall := []
  contextFiles : List String := []
deriving DecidableEq, Repr

/-- Modelled from the spec: `isSessionExpiredError` of the missing
`ClaudianService.ts` — case-insensitive substring matching against the
fixed phrase set. -/
def isSessionExpiredError (msg : String) : Bool :=
  let m := strLower msg
  ["session expired", "session not found", "invalid session", "resume failed"].any
    (fun ph => strContains m ph)

/-- Modelled from the spec: `truncateToolResultForContext` of the missing
`ClaudianService.ts` — results longer than the budget are cut to the
budget with a trailing `(truncated)` marker. -/
def truncateToolResultForContext (r : String) (maxLen : Nat) : String :=
  if r.toList.length > maxLen then String.mk (r.toList.take maxLen) ++ "... (truncated)"
  else r

/-- Join strings with a separator. -/
def joinSep (sep : String) : List String → String
  | [] => ""
  | [s] => s
  | s :: rest => s ++ sep ++ joinSep sep rest

/-- The lines contributed by one history entry: the role-prefixed content
line, one `[Tool <name> status=<status>]` summary line (with truncated
result) per tool call, and a `Context files: [...]` line when present. -/
def historyEntryLines (e : HistoryEntry) : List String :=
  ((match e.role with
    | .user => "User: " ++ e.content
    | .assistant => "Assistant: " ++ e.content)
    :: e.toolCalls.map (fun t =>
        "[Tool " ++ t.name ++ " status=" ++ t.status ++ "]"
          ++ (match t.result with
              | some r => "\n" ++ truncateToolResultForContext r 500
              | none => "")))
    ++ (if e.contextFiles.isEmpty then []
        else ["Context files: [" ++ joinSep ", " e.contextFiles ++ "]"])

/-- Modelled from the spec: `buildContextFromHistory` of the missing
`ClaudianService.ts` — the history entries flattened into role-prefixed
lines with inlined tool-call summaries and context-file lines. -/
def buildContextFromHistory (entries : List HistoryEntry) : String :=
  joinSep "\n" (entries.flatMap historyEntryLines)

/-- The single rebuilt prompt used for the retry: the rebuilt history
prepended to the original user prompt. -/
def rebuildPrompt (history : List HistoryEntry) (prompt : String) : String :=
  buildContextFromHistory history ++ "\n\n" ++ prompt

/-- Session manager state: the stored session id. -/
structure SessionState where
  sessionId : Option String
deriving DecidableEq, Repr

/-- Modelled from the spec: the query driver of the missing
`ClaudianService.ts` with session-expiry recovery.  The agent runtime is a
function from (resume id, prompt) to a turn outcome.  On a first-attempt
failure classified as session expiry, the stored session id is cleared and
the query is retried exactly once without a resume id using the rebuilt
prompt; a second failure is returned as the turn's fatal error. -/
def queryWithRecovery
    (run : Option String → String → Except String (List StreamChunk))
    (st : SessionState) (prompt : String) (history : List HistoryEntry) :
    SessionState × Except String (List StreamChunk) :=
  match run st.sessionId prompt with
  | .ok chunks => (st, .ok chunks)
  | .error e =>
    if isSessionExpiredError e then
      (⟨none⟩, run none (rebuildPrompt history prompt))
    else (st, .error e)

/-- The concrete history used in the recovery-flow test. -/
def recoveryTestHistory : List HistoryEntry :=
  [{ role := .user, content := "First question" },
   { role := .assistant, content := "Answer",
     toolCalls := [{ name := "Read", status := "completed",
                     result := some "file content" }] },
   { role := .user, content := "Follow up", contextFiles := ["note.md"] }]

/-! ## Claim C7 -/

/-- C7: when the first attempt fails with a message recognized (by
case-insensitive containment of a fixed expiry phrase, e.g. "Session
expired") as session expiry, the stored session id is cleared and the
query is retried exactly once without a resume id on the single rebuilt
prompt (history lines before the original prompt); afterwards the session
id is `none`, a second failure propagates as the turn's error, and the
rebuilt prompt for the concrete test history contains the role-prefixed
lines, the tool summary line, and the context-files line. -/
theorem C7_session_expiry_recovery :
    (∀ run st prompt history e,
      run st.sessionId prompt = Except.error e →
      isSessionExpiredError e = true →
      queryWithRecovery run st prompt history
        = (⟨none⟩, run none (rebuildPrompt history prompt)))
    ∧ (∀ run st prompt history e e₂,
      run st.sessionId prompt = Except.error e →
      isSessionExpiredError e = true →
      run none (rebuildPrompt history prompt) = Except.error e₂ →
      queryWithRecovery run st prompt history = (⟨none⟩, Except.error e₂))
    ∧ isSessionExpiredError "Session expired" = true
    ∧ isSessionExpiredError "Resume failed" = true
    ∧ isSessionExpiredError "Network error" = false
    ∧ (strContains (rebuildPrompt recoveryTestHistory "Follow up")
        "User: First question" = true
      ∧ strContains (rebuildPrompt recoveryTestHistory "Follow up")
        "Assistant: Answer" = true
      ∧ strContains (rebuildPrompt recoveryTestHistory "Follow up")
        "[Tool Read status=completed]" = true
      ∧ strContains (rebuildPrompt recoveryTestHistory "Follow up")
        "file content" = true
      ∧ strContains (rebuildPrompt recoveryTestHistory "Follow up")
        "Context files: [note.md]" = true) := by
  refine ⟨?_, ?_, by decide, by decide, by decide, by decide⟩
  · intro run st prompt history e h1 h2
    unfold queryWithRecovery
    rw [h1]
    simp [h2]
  · intro run st prompt history e e₂ h1 h2 h3
    unfold queryWithRecovery
    rw [h1]
    simp [h2, h3]

/-- Witness for C7: a concrete runtime that fails once with "Session
expired" and succeeds on the retry — the session id ends cleared and the
retry runs on the rebuilt prompt. -/
theorem C7_session_expiry_recovery_witness :
    queryWithRecovery
      (fun resume _ => match resume with
        | some _ => Except.error "Session expired"
        | none => Except.ok [StreamChunk.text "Recovered"])
      ⟨some "stale-session"⟩ "Follow up" recoveryTestHistory
      = (⟨none⟩, Except.ok [StreamChunk.text "Recovered"]) :=
  C7_session_expiry_recovery.1
    (fun resume _ => match resume with
      | some _ => Except.error "Session expired"
      | none => Except.ok [StreamChunk.text "Recovered"])
    ⟨some "stale-session"⟩ "Follow up" recoveryTestHistory
    "Session expired" rfl (by decide)

/-! ## A JSON model

`AsyncSubagentManager` (source file `AsyncSubagentManager.ts`) relies on
`JSON.parse`/`JSON.stringify`; this section gives an executable JSON value
type parsed by a fuel-driven recursive-descent parser (fuel bounded by the
input length, so parsing is total and kernel-reducible). -/

/-- JSON values.  Objects keep their fields in source order; field lookup
is last-wins, mirroring how `JSON.parse` resolves duplicate keys. -/
inductive Json where
  | null
  | bool (b : Bool)
  | num (raw : String)
  | str (s : String)
  | arr (elems : List Json)
  | obj (fields : List (String × Json))

/-- The double-quote character. -/
def jsonQuote : Char := Char.ofNat 34

/-- The backslash character. -/
def jsonBackslash : Char := Char.ofNat 92

/-- The opening-brace character. -/
def jsonLBrace : Char := Char.ofNat 123

/-- The closing-brace character. -/
def jsonRBrace : Char := Char.ofNat 125

/-- Whitespace for JSON, `trim` and `\s`: space, tab, newlines, form/vertical feed. -/
def isWsRegexChar (c : Char) : Bool :=
  c == ' ' || c == '\t' || c == '\n' || c == '\r'
    || c == Char.ofNat 11 || c == Char.ofNat 12

/-- Skip leading whitespace. -/
def skipWs (cs : List Char) : List Char :=
  cs.dropWhile isWsRegexChar

/-- JavaScript `String.prototype.trim`. -/
def strTrim (s : String) : String :=
  String.mk (((s.toList.dropWhile isWsRegexChar).reverse.dropWhile isWsRegexChar).reverse)

/-- Value of a hexadecimal digit. -/
def hexVal (c : Char) : Option Nat :=
  if 48 ≤ c.toNat && c.toNat ≤ 57 then some (c.toNat - 48)
  else if 97 ≤ c.toNat && c.toNat ≤ 102 then some (c.toNat - 87)
  else if 65 ≤ c.toNat && c.toNat ≤ 70 then some (c.toNat - 55)
  else none

/-- Decode a single-character JSON escape. -/
def decodeEsc (e : Char) : Option Char :=
  if e == jsonQuote then some jsonQuote
  else if e == jsonBackslash then some jsonBackslash
  else if e == '/' then some '/'
  else if e == 'b' then some (Char.ofNat 8)
  else if e == 'f' then some (Char.ofNat 12)
  else if e == 'n' then some (Char.ofNat 10)
  else if e == 'r' then some (Char.ofNat 13)
  else if e == 't' then some (Char.ofNat 9)
  else none

/-- Parse the body of a JSON string (after the opening quote); returns the
decoded string and the remainder after the closing quote. -/
def parseJStringAux : Nat → List Char → List Char → Option (String × List Char)
  | 0, _, _ => none
  | fuel + 1, acc, cs =>
    match cs with
    | [] => none
    | c :: rest =>
      if c == jsonQuote then some (String.mk acc.reverse, rest)
      else if c == jsonBackslash then
        match rest with
        | [] => none
        | e :: rest2 =>
          if e == 'u' then
            match rest2 with
            | h1 :: h2 :: h3 :: h4 :: rest3 =>
              match hexVal h1, hexVal h2, hexVal h3, hexVal h4 with
              | some a, some b, some c3, some d =>
                parseJStringAux fuel (Char.ofNat (((a * 16 + b) * 16 + c3) * 16 + d) :: acc) rest3
              | _, _, _, _ => none
            | _ => none
          else
            match decodeEsc e with
            | some ch => parseJStringAux fuel (ch :: acc) rest2
            | none => none
      else parseJStringAux fuel (c :: acc) rest

/-- First character of a JSON number. -/
def isNumStartChar (c : Char) : Bool :=
  c.isDigit || c == '-'

/-- Characters that may continue a JSON number token. -/
def isNumBodyChar (c : Char) : Bool :=
  c.isDigit || c == '-' || c == '+' || c == '.' || c == 'e' || c == 'E'

/-- Parser mode: a value, the members of an object, or the elements of an
array (with the fields/elements accumulated so far). -/
inductive JsonParseMode where
  | value
  | members (acc : List (String × Json))
  | elems (acc : List Json)

/-- The recursive-descent JSON parser core, fuel-driven. -/
def parseCore : Nat → JsonParseMode → List Char → Option (Json × List Char)
  | 0, _, _ => none
  | fuel + 1, .value, cs =>
    match skipWs cs with
    | [] => none
    | c :: rest =>
      if c == jsonQuote then
        match parseJStringAux (rest.length + 1) [] rest with
        | some (s, rest1) => some (.str s, rest1)
        | none => none
      else if c == jsonLBrace then
        match skipWs rest with
        | c2 :: rest2 =>
          if c2 == jsonRBrace then some (.obj [], rest2)
          else parseCore fuel (.members []) rest
        | [] => none
      else if c == '[' then
        match skipWs rest with
        | c2 :: rest2 =>
          if c2 == ']' then some (.arr [], rest2)
          else parseCore fuel (.elems []) rest
        | [] => none
      else if c == 't' then
        if listIsPrefixOf "rue".toList rest then some (.bool true, rest.drop 3) else none
      else if c == 'f' then
        if listIsPrefixOf "alse".toList rest then some (.bool false, rest.drop 4) else none
      else if c == 'n' then
        if listIsPrefixOf "ull".toList rest then some (.null, rest.drop 3) else none
      else if isNumStartChar c then
        some (.num (String.mk (c :: rest.takeWhile isNumBodyChar)),
          rest.dropWhile isNumBodyChar)
      else none
  | fuel + 1, .members acc, cs =>
    match skipWs cs with
    | [] => none
    | c :: rest =>
      if c == jsonQuote then
        match parseJStringAux (rest.length + 1) [] rest with
        | some (k, rest1) =>
          match skipWs rest1 with
          | [] => none
          | c2 :: rest2 =>
            if c2 == ':' then
              match parseCore fuel .value rest2 with
              | some (v, rest3) =>
                match skipWs rest3 with
                | [] => none
                | c4 :: rest4 =>
                  if c4 == ',' then parseCore fuel (.members (acc ++ [(k, v)])) rest4
                  else if c4 == jsonRBrace then some (.obj (acc ++ [(k, v)]), rest4)
                  else none
              | none => none
            else none
        | none => none
      else none
  | fuel + 1, .elems acc, cs =>
    match parseCore fuel .value cs with
    | some (v, rest1) =>
      match skipWs rest1 with
      | [] => none
      | c2 :: rest2 =>
        if c2 == ',' then parseCore fuel (.elems (acc ++ [v])) rest2
        else if c2 == ']' then some (.arr (acc ++ [v]), rest2)
        else none
    | none => none

/-- `JSON.parse`: parse a complete JSON document; trailing garbage or any
syntax error yields `none` (the JS exception). -/
def jsonParse (s : String) : Option Json :=
  match parseCore (2 * s.toList.length + 8) .value s.toList with
  | some (v, rest) => if (skipWs rest).isEmpty then some v else none
  | none => none

/-- Property access `j.k`: a field of an object (last occurrence wins, as
after `JSON.parse`), `none` (JS `undefined`) otherwise. -/
def Json.getField : Json → String → Option Json
  | .obj fields, k => fields.foldl (fun acc p => if p.1 == k then some p.2 else acc) none
  | _, _ => none

/-- JavaScript truthiness of a JSON value (atoms; objects and arrays are
always truthy). -/
def jsTruthy : Json → Bool
  | .null => false
  | .bool b => b
  | .num raw => !(raw == "0" || raw == "-0")
  | .str s => !(s == "")
  | .arr _ => true
  | .obj _ => true

/-- JavaScript `a || b` on possibly-absent JSON values. -/
def jsOrJson (a b : Option Json) : Option Json :=
  match a with
  | some v => if jsTruthy v then some v else b
  | none => b

/-- String rendering of a JSON atom (the only values the code turns into
identifiers); objects and arrays do not occur on these paths. -/
def jsonAtomString : Json → String
  | .str s => s
  | .num r => r
  | .bool true => "true"
  | .bool false => "false"
  | .null => "null"
  | .arr _ => ""
  | .obj _ => ""

/-- Spaces for `JSON.stringify` indentation. -/
def spacesN (n : Nat) : String :=
  String.mk (List.replicate n ' ')

/-- Hex digit character. -/
def hexDigitChar (n : Nat) : Char :=
  if n < 10 then Char.ofNat (48 + n) else Char.ofNat (87 + n)

/-- Escape one character for a JSON string literal. -/
def escapeJsonChar (c : Char) : List Char :=
  if c == jsonQuote then [jsonBackslash, jsonQuote]
  else if c == jsonBackslash then [jsonBackslash, jsonBackslash]
  else if c == Char.ofNat 10 then [jsonBackslash, 'n']
  else if c == Char.ofNat 13 then [jsonBackslash, 'r']
  else if c == Char.ofNat 9 then [jsonBackslash, 't']
  else if c == Char.ofNat 8 then [jsonBackslash, 'b']
  else if c == Char.ofNat 12 then [jsonBackslash, 'f']
  else if c.toNat < 32 then
    jsonBackslash :: 'u' :: '0' :: '0'
      :: hexDigitChar (c.toNat / 16) :: [hexDigitChar (c.toNat % 16)]
  else [c]

/-- Escape a string for a JSON string literal. -/
def escapeJString (s : String) : String :=
  String.mk (s.toList.flatMap escapeJsonChar)

/-- `JSON.stringify(v, null, 2)` at a given indentation level, fuel-driven
(the fuel is instantiated from the length of the payload the value was
parsed from, which bounds its depth). -/
def jsonStringify : Nat → Nat → Json → String
  | 0, _, _ => ""
  | fuel + 1, ind, j =>
    match j with
    | .null => "null"
    | .bool true => "true"
    | .bool false => "false"
    | .num r => r
    | .str s => String.mk [jsonQuote] ++ escapeJString s ++ String.mk [jsonQuote]
    | .arr [] => "[]"
    | .arr elems =>
      "[\n"
        ++ joinSep ",\n"
            (elems.map (fun e => spacesN (ind + 2) ++ jsonStringify fuel (ind + 2) e))
        ++ "\n" ++ spacesN ind ++ "]"
    | .obj [] => "\x7b\x7d"
    | .obj fields =>
      "\x7b\n"
        ++ joinSep ",\n"
            (fields.map (fun p => spacesN (ind + 2)
              ++ String.mk [jsonQuote] ++ escapeJString p.1 ++ String.mk [jsonQuote]
              ++ ": " ++ jsonStringify fuel (ind + 2) p.2))
        ++ "\n" ++ spacesN ind ++ "\x7d"

/-! ## Agent-id extraction (`AsyncSubagentManager.parseAgentId`)

Embedded from `AsyncSubagentManager.ts`: the regex cascade is implemented
as explicit leftmost-match scanners for the five patterns, followed by the
JSON-parsing fallback. -/

/-- Word character for regex `\b` and `[a-zA-Z0-9_]`. -/
def isWordChar (c : Char) : Bool :=
  c.isAlpha || c.isDigit || c == '_'

/-- Character class `[a-zA-Z0-9_-]`. -/
def isWordDashChar (c : Char) : Bool :=
  isWordChar c || c == '-'

/-- Character class `[a-f0-9]`. -/
def isHexLowerChar (c : Char) : Bool :=
  c.isDigit || (97 ≤ c.toNat && c.toNat ≤ 102)

/-- Leftmost match: try the matcher at every suffix, left to right. -/
def scanFirst {α : Type} (f : List Char → Option α) : List Char → Option α
  | [] => f []
  | c :: cs =>
    match f (c :: cs) with
    | some r => some r
    | none => scanFirst f cs

/-- Leftmost match with access to the preceding character (for `\b`). -/
def scanWithPrev {α : Type} (f : Option Char → List Char → Option α) :
    Option Char → List Char → Option α
  | prev, [] => f prev []
  | prev, c :: cs =>
    match f prev (c :: cs) with
    | some r => some r
    | none => scanWithPrev f (some c) cs

/-- Drop an exact literal prefix. -/
def dropLit (lit cs : List Char) : Option (List Char) :=
  if listIsPrefixOf lit cs then some (cs.drop lit.length) else none

/-- Case-insensitive list-prefix test. -/
def listIsPrefixOfCI : List Char → List Char → Bool
  | [], _ => true
  | _ :: _, [] => false
  | a :: as, b :: bs => a.toLower == b.toLower && listIsPrefixOfCI as bs

/-- Match `"<key>"\s*:\s*"([^"]+)"` at the current position (regex shapes
1 and 2 of `parseAgentId`). -/
def matchQuotedKeyAt (key : List Char) (cs : List Char) : Option String :=
  match dropLit (jsonQuote :: (key ++ [jsonQuote])) cs with
  | none => none
  | some cs1 =>
    match cs1.dropWhile isWsRegexChar with
    | [] => none
    | c :: cs3 =>
      if c == ':' then
        match cs3.dropWhile isWsRegexChar with
        | [] => none
        | q :: cs5 =>
          if q == jsonQuote then
            let content := cs5.takeWhile (fun ch => !(ch == jsonQuote))
            let rest := cs5.dropWhile (fun ch => !(ch == jsonQuote))
            if !content.isEmpty && !rest.isEmpty then some (String.mk content)
            else none
          else none
      else none

/-- Match `<key>[=:]\s*"?([a-zA-Z0-9_-]+)"?` case-insensitively at the
current position (regex shapes 3 and 4 of `parseAgentId`). -/
def matchLooseKeyAt (key : List Char) (cs : List Char) : Option String :=
  if listIsPrefixOfCI key cs then
    match cs.drop key.length with
    | [] => none
    | c :: cs2 =>
      if c == '=' || c == ':' then
        let cs3 := cs2.dropWhile isWsRegexChar
        let cs4 :=
          match cs3 with
          | q :: rest => if q == jsonQuote then rest else cs3
          | [] => cs3
        let content := cs4.takeWhile isWordDashChar
        if !content.isEmpty then some (String.mk content) else none
      else none
  else none

/-- Match `\b([a-f0-9]{8})\b` at the current position (regex shape 5 of
`parseAgentId`). -/
def matchHex8At (prev : Option Char) (cs : List Char) : Option String :=
  let boundaryBefore :=
    match prev with
    | none => true
    | some c => !isWordChar c
  if boundaryBefore then
    let eight := cs.take 8
    if eight.length == 8 && eight.all isHexLowerChar then
      match cs.drop 8 with
      | [] => some (String.mk eight)
      | c :: _ => if !isWordChar c then some (String.mk eight) else none
    else none
  else none

/-- The `parsed.id` fallback of `parseAgentId`: a truthy string `id`. -/
def parseAgentIdIdFallback (parsed : Json) : Option String :=
  match parsed.getField "id" with
  | some (.str s) => if !(s == "") then some s else none
  | _ => none

/-- The `parsed.data?.agent_id` fallback of `parseAgentId`, then the `id`
fallback. -/
def parseAgentIdDataFallback (parsed : Json) : Option String :=
  match parsed.getField "data" with
  | some d =>
    match d.getField "agent_id" with
    | some v => if jsTruthy v then some (jsonAtomString v) else parseAgentIdIdFallback parsed
    | none => parseAgentIdIdFallback parsed
  | none => parseAgentIdIdFallback parsed

/-- Embedded from `AsyncSubagentManager.parseAgentId`: try the five regex
shapes in order on the whole result, then fall back to JSON parsing
(`agent_id` or `agentId`, then `data.agent_id`, then `id`). -/
def parseAgentId (result : String) : Option String :=
  let cs := result.toList
  match scanFirst (matchQuotedKeyAt "agent_id".toList) cs with
  | some v => some v
  | none =>
    match scanFirst (matchQuotedKeyAt "agentId".toList) cs with
    | some v => some v
    | none =>
      match scanFirst (matchLooseKeyAt "agent_id".toList) cs with
      | some v => some v
      | none =>
        match scanFirst (matchLooseKeyAt "agentId".toList) cs with
        | some v => some v
        | none =>
          match scanWithPrev matchHex8At none cs with
          | some v => some v
          | none =>
            match jsonParse result with
            | none => none
            | some parsed =>
              match jsOrJson (parsed.getField "agent_id") (parsed.getField "agentId") with
              | some (.str s) =>
                if !(s == "") then some s else parseAgentIdDataFallback parsed
              | _ => parseAgentIdDataFallback parsed

/-! ## Output-result classification (`AsyncSubagentManager`) -/

/-- Embedded from `AsyncSubagentManager.ts` (`unwrapTextPayload` inside
`isStillRunningResult`, duplicated inside `extractAgentResult`): unwrap a
`\x7b type: 'text', text: '...' \x7d` envelope or the first text block of an
array of blocks. -/
def unwrapTextPayload (raw : String) : String :=
  match jsonParse raw with
  | some (.arr elems) =>
    match elems.find? (fun b =>
        match b.getField "text" with
        | some (.str _) => true
        | _ => false) with
    | some b =>
      match b.getField "text" with
      | some (.str t) => if t == "" then raw else t
      | _ => raw
    | none => raw
  | some (.obj fields) =>
    match Json.getField (.obj fields) "text" with
    | some (.str t) => t
    | _ => raw
  | _ => raw

/-- Is this optional value a string equal to one of the given words? -/
def statusIsOneOf (st : Option Json) (opts : List String) : Bool :=
  match st with
  | some (.str s) => opts.contains s
  | _ => false

/-- The lower-cased `status` strings of the entries of an `agents` value
(non-string statuses map to `""`, as in the source). -/
def agentStatusStrings : Json → List String
  | .obj fields =>
    fields.map (fun p =>
      match p.2.getField "status" with
      | some (.str s) => strLower s
      | _ => "")
  | .arr elems =>
    elems.map (fun a =>
      match a.getField "status" with
      | some (.str s) => strLower s
      | _ => "")
  | _ => []

/-- Does an `agents` value have any entries (`Object.keys(...).length > 0`)? -/
def agentsNonEmpty : Option Json → Bool
  | some (.obj fields) => !fields.isEmpty
  | some (.arr elems) => !elems.isEmpty
  | _ => false

/-- Embedded from `AsyncSubagentManager.isStillRunningResult`: an error or
empty result is final; a JSON payload is still running when its
`retrieval_status`/`status` is `not_ready`/`running`/`pending` or some
agent in a non-empty `agents` map reports such a status (lower-cased);
other JSON is final; a non-JSON payload is still running only when it
contains `not_ready`/`not ready`. -/
def isStillRunningResult (result : String) (isError : Bool) : Bool :=
  let trimmed := strTrim result
  let payload := unwrapTextPayload trimmed
  if isError then false
  else if trimmed == "" then false
  else
    match jsonParse payload with
    | some parsed =>
      let status := jsOrJson (parsed.getField "retrieval_status") (parsed.getField "status")
      let agentsVal := parsed.getField "agents"
      if statusIsOneOf status ["not_ready", "running", "pending"] then true
      else if agentsNonEmpty agentsVal then
        (agentStatusStrings (agentsVal.getD .null)).any
          (fun s => s == "running" || s == "pending" || s == "not_ready")
      else if statusIsOneOf status ["success", "completed"] then false
      else false
    | none =>
      let lowerResult := strLower payload
      strContains lowerResult "not_ready" || strContains lowerResult "not ready"

/-- Render one agent entry: its truthy `result` field, else
`JSON.stringify(entry, null, 2)` with fuel from the payload length. -/
def agentEntryResult (agentData : Json) (payload : String) : String :=
  match agentData.getField "result" with
  | some r =>
    if jsTruthy r then jsonAtomString r
    else jsonStringify (payload.toList.length + 8) 0 agentData
  | none => jsonStringify (payload.toList.length + 8) 0 agentData

/-- Embedded from `AsyncSubagentManager.extractAgentResult`: unwrap the
text envelope, then prefer `agents[agentId].result`, fall back to the
first entry of `agents`, and finally to the raw payload. -/
def extractAgentResult (result : String) (agentId : String) : String :=
  let payload := unwrapTextPayload result
  match jsonParse payload with
  | some parsed =>
    match parsed.getField "agents" with
    | some agents =>
      let hit :=
        if jsTruthy agents && !(agentId == "") then
          match agents.getField agentId with
          | some v => if jsTruthy v then some v else none
          | none => none
        else none
      match hit with
      | some agentData => agentEntryResult agentData payload
      | none =>
        if jsTruthy agents then
          match agents with
          | .obj ((k, _) :: _) =>
            match agents.getField k with
            | some firstAgent => agentEntryResult firstAgent payload
            | none => payload
          | .arr (a0 :: _) => agentEntryResult a0 payload
          | _ => payload
        else payload
    | none => payload
  | none => payload

/-- Embedded from `AsyncSubagentManager.inferAgentIdFromResult`: the first
key of a JSON `agents` object (`Object.keys(...)[0]`). -/
def inferAgentIdFromResult (result : String) : Option String :=
  match jsonParse result with
  | some parsed =>
    match parsed.getField "agents" with
    | some (.obj ((k, _) :: _)) => some k
    | some (.arr (_ :: _)) => some "0"
    | _ => none
  | none => none

/-- Embedded from `AsyncSubagentManager.extractAgentIdFromInput`:
`input.agentId || input.agent_id`, `null` when the combination is falsy. -/
def extractAgentIdFromInput (input : ToolInput) : Option String :=
  match jsOrStr input.agentId input.agent_id with
  | some s => if s == "" then none else some s
  | none => none

/-! ## AsyncSubagentManager state machine

Embedded from `AsyncSubagentManager.ts`.  The four JS `Map`s become
association lists with JS-`Map` semantics (`set` replaces in place or
appends, `delete` removes, iteration in insertion order); the
`onStateChange` callback becomes the list of notified snapshots returned
by each operation; `Date.now()` becomes an explicit `now` argument. -/

/-- Async lifecycle status of a subagent. -/
inductive AsyncSubagentStatus
  | pending
  | running
  | completed
  | error
  | orphaned
deriving DecidableEq, Repr

/-- A tracked subagent (source `SubagentInfo`, the fields the manager
touches). -/
structure SubagentInfo where
  id : String
  description : String
  mode : String
  isExpanded : Bool
  status : String
  toolCalls : List String
  asyncStatus : AsyncSubagentStatus
  agentId : Option String := none
  result : Option String := none
  startedAt : Option Nat := none
  completedAt : Option Nat := none
  outputToolId : Option String := none
deriving DecidableEq, Repr

/-- A tool call observed by the manager (source `ToolCallInfo`, the fields
the manager reads). -/
structure ToolCallInfo where
  id : String
  name : String
  input : ToolInput
deriving DecidableEq, Repr

/-- JS `Map.get`. -/
def mapGet {α : Type} (m : List (String × α)) (k : String) : Option α :=
  match m with
  | [] => none
  | (k', v) :: rest => if k' == k then some v else mapGet rest k

/-- JS `Map.set`: replace in place if the key exists, else append. -/
def mapSet {α : Type} (m : List (String × α)) (k : String) (v : α) :
    List (String × α) :=
  match m with
  | [] => [(k, v)]
  | (k', v') :: rest => if k' == k then (k, v) :: rest else (k', v') :: mapSet rest k v

/-- JS `Map.delete`. -/
def mapDel {α : Type} (m : List (String × α)) (k : String) : List (String × α) :=
  m.filter (fun p => !(p.1 == k))

/-- The manager's mutable state: its four maps. -/
structure AsyncManagerState where
  activeAsyncSubagents : List (String × SubagentInfo) := []
  pendingAsyncSubagents : List (String × SubagentInfo) := []
  taskIdToAgentId : List (String × String) := []
  outputToolIdToAgentId : List (String × String) := []
deriving DecidableEq, Repr

/-- A fresh manager. -/
def AsyncManagerState.empty : AsyncManagerState := {}

/-- Embedded from `AsyncSubagentManager.isAsyncTask`. -/
def isAsyncTask (taskInput : ToolInput) : Bool :=
  taskInput.run_in_background

/-- Embedded from `AsyncSubagentManager.createAsyncSubagent`: store a new
pending subagent under the task tool id (no state-change notification). -/
def createAsyncSubagent (st : AsyncManagerState) (taskToolId : String)
    (taskInput : ToolInput) : AsyncManagerState × SubagentInfo :=
  let description :=
    match taskInput.description with
    | some s => if s == "" then "Background task" else s
    | none => "Background task"
  let subagent : SubagentInfo :=
    { id := taskToolId, description := description, mode := "async",
      isExpanded := false, status := "running", toolCalls := [],
      asyncStatus := .pending }
  ({ st with pendingAsyncSubagents := mapSet st.pendingAsyncSubagents taskToolId subagent },
    subagent)

/-- Embedded from `AsyncSubagentManager.handleTaskToolResult`: on an error
result or an unparsable agent id the pending subagent moves to `error`;
otherwise it moves to `running` under the parsed agent id.  Returns the
new state and the notified snapshots. -/
def handleTaskToolResult (st : AsyncManagerState) (taskToolId result : String)
    (isError : Bool) (now : Nat) : AsyncManagerState × List SubagentInfo :=
  match mapGet st.pendingAsyncSubagents taskToolId with
  | none => (st, [])
  | some subagent =>
    if isError then
      let sub1 := { subagent with
        asyncStatus := .error, status := "error",
        result := some (if result == "" then "Task failed to start" else result),
        completedAt := some now }
      ({ st with pendingAsyncSubagents := mapDel st.pendingAsyncSubagents taskToolId },
        [sub1])
    else
      match parseAgentId result with
      | none =>
        let truncatedResult :=
          if result.toList.length > 100 then String.mk (result.toList.take 100) ++ "..."
          else result
        let sub1 := { subagent with
          asyncStatus := .error, status := "error",
          result := some ("Failed to parse agent_id. Result: " ++ truncatedResult),
          completedAt := some now }
        ({ st with pendingAsyncSubagents := mapDel st.pendingAsyncSubagents taskToolId },
          [sub1])
      | some agentId =>
        let sub1 := { subagent with
          asyncStatus := .running, agentId := some agentId, startedAt := some now }
        ({ st with
            pendingAsyncSubagents := mapDel st.pendingAsyncSubagents taskToolId,
            activeAsyncSubagents := mapSet st.activeAsyncSubagents agentId sub1,
            taskIdToAgentId := mapSet st.taskIdToAgentId taskToolId agentId },
          [sub1])

/-- Embedded from `AsyncSubagentManager.handleAgentOutputToolUse`: link
the output tool id to the subagent (warn-and-ignore when the agent id is
absent or unknown). -/
def handleAgentOutputToolUse (st : AsyncManagerState) (toolCall : ToolCallInfo) :
    AsyncManagerState :=
  match extractAgentIdFromInput toolCall.input with
  | none => st
  | some agentId =>
    match mapGet st.activeAsyncSubagents agentId with
    | none => st
    | some subagent =>
      let sub1 := { subagent with outputToolId := some toolCall.id }
      { st with
          activeAsyncSubagents := mapSet st.activeAsyncSubagents agentId sub1,
          outputToolIdToAgentId := mapSet st.outputToolIdToAgentId toolCall.id agentId }

/-- Embedded from `AsyncSubagentManager.handleAgentOutputToolResult`:
locate the subagent via the output-tool linkage (or by inferring the agent
id from the payload), remember the linkage, and either leave a
still-running subagent unchanged (clearing the linkage) or finalize it to
`completed`/`error` with the extracted result.  Returns the new state, the
function's return value, and the notified snapshots. -/
def handleAgentOutputToolResult (st : AsyncManagerState) (toolId result : String)
    (isError : Bool) (now : Nat) :
    AsyncManagerState × Option SubagentInfo × List SubagentInfo :=
  let agentId0 := mapGet st.outputToolIdToAgentId toolId
  let sub0 :=
    match agentId0 with
    | some a => mapGet st.activeAsyncSubagents a
    | none => none
  let found :=
    match sub0 with
    | some s => some (agentId0, s)
    | none =>
      match inferAgentIdFromResult result with
      | some inferred =>
        match mapGet st.activeAsyncSubagents inferred with
        | some s => some (some inferred, s)
        | none => none
      | none => none
  match found with
  | none => (st, none, [])
  | some (agentId, sub) =>
    let withLink :=
      match agentId with
      | some a =>
        let sub1 := { sub with agentId := jsOrStr sub.agentId (some a) }
        ({ st with
            activeAsyncSubagents := mapSet st.activeAsyncSubagents a sub1,
            outputToolIdToAgentId := mapSet st.outputToolIdToAgentId toolId a },
          sub1)
      | none => (st, sub)
    let st1 := withLink.1
    let sub1 := withLink.2
    if !(sub1.asyncStatus = .running) then (st1, none, [])
    else if isStillRunningResult result isError then
      ({ st1 with outputToolIdToAgentId := mapDel st1.outputToolIdToAgentId toolId },
        some sub1, [])
    else
      let extractedResult := extractAgentResult result (agentId.getD "")
      let sub2 := { sub1 with
        asyncStatus := if isError then .error else .completed,
        status := if isError then "error" else "completed",
        result := some extractedResult,
        completedAt := some now }
      let st2 := { st1 with
        activeAsyncSubagents :=
          (match agentId with
          | some a => mapDel st1.activeAsyncSubagents a
          | none => st1.activeAsyncSubagents),
        outputToolIdToAgentId := mapDel st1.outputToolIdToAgentId toolId }
      (st2, some sub2, [sub2])

/-- The orphaned form of a subagent. -/
def orphanInfo (s : SubagentInfo) (now : Nat) : SubagentInfo :=
  { s with
    asyncStatus := .orphaned, status := "error",
    result := some "Conversation ended before task completed",
    completedAt := some now }

/-- Embedded from `AsyncSubagentManager.orphanAllActive`: every pending
subagent and every running active subagent becomes `orphaned` (with the
fixed result), live tracking is cleared (`taskIdToAgentId` is kept), and
the orphaned snapshots are returned (equal to the notified snapshots). -/
def orphanAllActive (st : AsyncManagerState) (now : Nat) :
    AsyncManagerState × List SubagentInfo :=
  let orphanedPending := st.pendingAsyncSubagents.map (fun p => orphanInfo p.2 now)
  let orphanedActive :=
    (st.activeAsyncSubagents.filter (fun p => p.2.asyncStatus = .running)).map
      (fun p => orphanInfo p.2 now)
  ({ st with
      pendingAsyncSubagents := [], activeAsyncSubagents := [],
      outputToolIdToAgentId := [] },
    orphanedPending ++ orphanedActive)

/-- Embedded from `AsyncSubagentManager.clear`. -/
def clearManager (st : AsyncManagerState) : AsyncManagerState :=
  { st with
      pendingAsyncSubagents := [], activeAsyncSubagents := [],
      taskIdToAgentId := [], outputToolIdToAgentId := [] }

/-- Embedded from `AsyncSubagentManager.getByAgentId`. -/
def getByAgentId (st : AsyncManagerState) (agentId : String) : Option SubagentInfo :=
  mapGet st.activeAsyncSubagents agentId

/-- Embedded from `AsyncSubagentManager.getByTaskId`. -/
def getByTaskId (st : AsyncManagerState) (taskToolId : String) : Option SubagentInfo :=
  match mapGet st.pendingAsyncSubagents taskToolId with
  | some pending => some pending
  | none =>
    match mapGet st.taskIdToAgentId taskToolId with
    | some agentId => mapGet st.activeAsyncSubagents agentId
    | none => none

/-- Embedded from `AsyncSubagentManager.isPendingAsyncTask`. -/
def isPendingAsyncTask (st : AsyncManagerState) (taskToolId : String) : Bool :=
  (mapGet st.pendingAsyncSubagents taskToolId).isSome

/-- Embedded from `AsyncSubagentManager.isLinkedAgentOutputTool`. -/
def isLinkedAgentOutputTool (st : AsyncManagerState) (toolId : String) : Bool :=
  (mapGet st.outputToolIdToAgentId toolId).isSome

/-- Embedded from `AsyncSubagentManager.getAllActive`. -/
def getAllActive (st : AsyncManagerState) : List SubagentInfo :=
  st.pendingAsyncSubagents.map (fun p => p.2)
    ++ st.activeAsyncSubagents.map (fun p => p.2)

/-- Embedded from `AsyncSubagentManager.hasActiveAsync`. -/
def hasActiveAsync (st : AsyncManagerState) : Bool :=
  !st.pendingAsyncSubagents.isEmpty || !st.activeAsyncSubagents.isEmpty

/-! ## Map lemmas -/

theorem mapGet_mapSet_self {α : Type} (m : List (String × α)) (k : String) (v : α) :
    mapGet (mapSet m k v) k = some v := by
  induction m with
  | nil => simp [mapSet, mapGet]
  | cons p rest ih =>
    by_cases h : p.1 == k
    · simp [mapSet, h, mapGet]
    · simp only [mapSet]
      rw [if_neg (by simpa using h)]
      simp [mapGet, h, ih]

theorem mapGet_mapDel_self {α : Type} (m : List (String × α)) (k : String) :
    mapGet (mapDel m k) k = none := by
  induction m with
  | nil => rfl
  | cons p rest ih =>
    by_cases h : p.1 == k
    · simpa [mapDel, h] using ih
    · simpa [mapDel, h, mapGet] using ih

theorem mapGet_mem {α : Type} (m : List (String × α)) (k : String) (v : α)
    (h : mapGet m k = some v) : (k, v) ∈ m := by
  induction m with
  | nil => simp [mapGet] at h
  | cons p rest ih =>
    obtain ⟨k0, v0⟩ := p
    by_cases hk : k0 == k
    · have hk2 : k0 = k := by simpa using hk
      subst hk2
      simp only [mapGet, beq_self_eq_true, if_pos] at h
      cases h
      exact List.mem_cons_self _ _
    · simp only [mapGet] at h
      rw [if_neg (by simpa using hk)] at h
      exact List.mem_cons_of_mem _ (ih h)

theorem mem_mapSet {α : Type} (m : List (String × α)) (k : String) (v : α)
    (k' : String) (v' : α) (h : (k', v') ∈ mapSet m k v) :
    (k' = k ∧ v' = v) ∨ (k', v') ∈ m := by
  induction m with
  | nil =>
    simp [mapSet] at h
    exact Or.inl ⟨h.1, h.2⟩
  | cons p rest ih =>
    by_cases hk : p.1 == k
    · simp only [mapSet, hk, if_pos] at h
      rcases List.mem_cons.mp h with h1 | h1
      · cases h1
        exact Or.inl ⟨rfl, rfl⟩
      · exact Or.inr (List.mem_cons_of_mem _ h1)
    · simp only [mapSet] at h
      rw [if_neg (by simpa using hk)] at h
      rcases List.mem_cons.mp h with h1 | h1
      · exact Or.inr (by simp [h1])
      · rcases ih h1 with h2 | h2
        · exact Or.inl h2
        · exact Or.inr (List.mem_cons_of_mem _ h2)

theorem mem_mapDel {α : Type} (m : List (String × α)) (k : String)
    (p : String × α) (h : p ∈ mapDel m k) : p ∈ m :=
  List.mem_of_mem_filter h

theorem mapSet_of_mapGet_eq {α : Type} (m : List (String × α)) (k : String) (v : α)
    (h : mapGet m k = some v) : mapSet m k v = m := by
  induction m with
  | nil => simp [mapGet] at h
  | cons p rest ih =>
    by_cases hk : p.1 == k
    · simp only [mapGet, hk, if_pos] at h
      cases h
      have hp : p.1 = k := by simpa using hk
      simp only [mapSet, hk, if_pos]
      cases p
      simp_all
    · simp only [mapGet, hk] at h
      rw [if_neg (by simp [hk])] at h
      simp only [mapSet]
      rw [if_neg (by simp [hk]), ih h]

theorem mapDel_mapSet_self {α : Type} (m : List (String × α)) (k : String) (v : α) :
    mapDel (mapSet m k v) k = mapDel m k := by
  induction m with
  | nil => simp [mapSet, mapDel]
  | cons p rest ih =>
    by_cases hk : p.1 == k
    · simp [mapSet, mapDel, hk]
    · simp only [mapSet]
      rw [if_neg (by simpa using hk)]
      simp [mapDel, hk] at ih ⊢
      exact ih

/-! ## Supporting lemmas: a needle at the start of a string is contained -/

theorem listIsPrefixOf_append_self (n rest : List Char) :
    listIsPrefixOf n (n ++ rest) = true := by
  induction n with
  | nil => rfl
  | cons c cs ih => simp [listIsPrefixOf, ih]

theorem listIsInfixOf_of_prefix (n h : List Char)
    (hp : listIsPrefixOf n h = true) : listIsInfixOf n h = true := by
  cases h with
  | nil =>
    cases n with
    | nil => rfl
    | cons c cs => simp [listIsPrefixOf] at hp
  | cons c cs => simp [listIsInfixOf, hp]

theorem strContains_append_left (a b : String) :
    strContains (a ++ b) a = true := by
  unfold strContains
  show listIsInfixOf a.data (a ++ b).data = true
  rw [String.data_append]
  exact listIsInfixOf_of_prefix _ _ (listIsPrefixOf_append_self _ _)

/-! ## Claim C8 -/

/-- C8: a pending async subagent handed a task tool-result moves to
`running` with the extracted agent id when one is extractable (and becomes
retrievable through `getByAgentId`), to `error` with a "Failed to parse
agent_id" message when none is, and to `error` when the result is flagged
as an error (never entering `running`); in all three outcomes it leaves
the pending index and a state-change snapshot is emitted. -/
theorem C8_task_result_transitions (st : AsyncManagerState)
    (taskId result : String) (now : Nat) (sub : SubagentInfo)
    (hpend : mapGet st.pendingAsyncSubagents taskId = some sub) :
    (∀ X, parseAgentId result = some X →
      handleTaskToolResult st taskId result false now
        = ({ st with
              pendingAsyncSubagents := mapDel st.pendingAsyncSubagents taskId,
              activeAsyncSubagents := mapSet st.activeAsyncSubagents X
                { sub with asyncStatus := .running, agentId := some X,
                           startedAt := some now },
              taskIdToAgentId := mapSet st.taskIdToAgentId taskId X },
           [{ sub with asyncStatus := .running, agentId := some X,
                       startedAt := some now }])
      ∧ getByAgentId (handleTaskToolResult st taskId result false now).1 X
          = some { sub with asyncStatus := .running, agentId := some X,
                            startedAt := some now }
      ∧ isPendingAsyncTask (handleTaskToolResult st taskId result false now).1 taskId
          = false)
    ∧ (parseAgentId result = none →
      ∃ m, handleTaskToolResult st taskId result false now
          = ({ st with
                pendingAsyncSubagents := mapDel st.pendingAsyncSubagents taskId },
             [{ sub with asyncStatus := .error, status := "error",
                         result := some m, completedAt := some now }])
        ∧ strContains m "Failed to parse agent_id" = true
        ∧ (handleTaskToolResult st taskId result false now).1.activeAsyncSubagents
            = st.activeAsyncSubagents)
    ∧ (handleTaskToolResult st taskId result true now
        = ({ st with
              pendingAsyncSubagents := mapDel st.pendingAsyncSubagents taskId },
           [{ sub with
               asyncStatus := .error, status := "error",
               result := some (if result == "" then "Task failed to start" else result),
               completedAt := some now }])) := by
  refine ⟨?_, ?_, ?_⟩
  · intro X hX
    have heq : handleTaskToolResult st taskId result false now
        = ({ st with
              pendingAsyncSubagents := mapDel st.pendingAsyncSubagents taskId,
              activeAsyncSubagents := mapSet st.activeAsyncSubagents X
                { sub with asyncStatus := .running, agentId := some X,
                           startedAt := some now },
              taskIdToAgentId := mapSet st.taskIdToAgentId taskId X },
           [{ sub with asyncStatus := .running, agentId := some X,
                       startedAt := some now }]) := by
      unfold handleTaskToolResult
      rw [hpend, hX]
      simp
    refine ⟨heq, ?_, ?_⟩
    · rw [heq]
      exact mapGet_mapSet_self _ _ _
    · rw [heq]
      unfold isPendingAsyncTask
      rw [mapGet_mapDel_self]
      rfl
  · intro hX
    refine ⟨"Failed to parse agent_id. Result: "
      ++ (if result.toList.length > 100 then String.mk (result.toList.take 100) ++ "..."
          else result), ?_, ?_, ?_⟩
    · unfold handleTaskToolResult
      rw [hpend, hX]
      simp
    · exact strContains_append_left _ _
    · unfold handleTaskToolResult
      rw [hpend, hX]
      simp
  · unfold handleTaskToolResult
    rw [hpend]
    simp

/-- The pending subagent created by the C8 witness scenario. -/
def c8PendingSub : SubagentInfo :=
  { id := "task-1", description := "Background", mode := "async",
    isExpanded := false, status := "running", toolCalls := [],
    asyncStatus := .pending }

/-- The manager state of the C8 witness scenario: one pending task. -/
def c8State : AsyncManagerState :=
  (createAsyncSubagent .empty "task-1"
    { description := some "Background", run_in_background := true }).1

/-- Witness for C8: the concrete launch body `\x7b"agent_id":"agent-123"\x7d`
moves the pending task to `running` under agent id `agent-123`. -/
theorem C8_task_result_transitions_witness :
    getByAgentId
        (handleTaskToolResult c8State "task-1" "\x7b\"agent_id\":\"agent-123\"\x7d" false 5).1
        "agent-123"
      = some { c8PendingSub with
               asyncStatus := .running,
               agentId := some "agent-123", startedAt := some 5 }
    ∧ isPendingAsyncTask
        (handleTaskToolResult c8State "task-1" "\x7b\"agent_id\":\"agent-123\"\x7d" false 5).1
        "task-1" = false :=
  ⟨((C8_task_result_transitions c8State "task-1" "\x7b\"agent_id\":\"agent-123\"\x7d" 5
      c8PendingSub (by decide)).1 "agent-123" (by decide)).2.1,
   ((C8_task_result_transitions c8State "task-1" "\x7b\"agent_id\":\"agent-123\"\x7d" 5
      c8PendingSub (by decide)).1 "agent-123" (by decide)).2.2⟩

/-! ## Claim C9 -/

theorem subagent_relink_self (sub : SubagentInfo) (a : String)
    (hid : sub.agentId = some a) :
    { sub with agentId := jsOrStr sub.agentId (some a) } = sub := by
  have hj : jsOrStr (some a) (some a) = some a := by
    simp only [jsOrStr]
    split <;> rfl
  rw [hid, hj, ← hid]

/-- The still-running / final classification and the handler behavior for
a linked running subagent (used by C9): still-running results leave the
subagent untouched and only clear the retrieval-tool linkage; final
results move it to `completed`/`error` with the extracted result and drop
it from the active index. -/
theorem handleAgentOutputToolResult_linked (st : AsyncManagerState)
    (toolId a : String) (sub : SubagentInfo) (result : String) (isErr : Bool)
    (now : Nat)
    (hlink : mapGet st.outputToolIdToAgentId toolId = some a)
    (hact : mapGet st.activeAsyncSubagents a = some sub)
    (hrun : sub.asyncStatus = .running)
    (hid : sub.agentId = some a) :
    (isStillRunningResult result isErr = true →
      handleAgentOutputToolResult st toolId result isErr now
        = ({ st with outputToolIdToAgentId := mapDel st.outputToolIdToAgentId toolId },
           some sub, []))
    ∧ (isStillRunningResult result isErr = false →
      handleAgentOutputToolResult st toolId result isErr now
        = ({ st with
              activeAsyncSubagents := mapDel st.activeAsyncSubagents a,
              outputToolIdToAgentId := mapDel st.outputToolIdToAgentId toolId },
           some { sub with
             asyncStatus := if isErr then .error else .completed,
             status := if isErr then "error" else "completed",
             result := some (extractAgentResult result a),
             completedAt := some now },
           [{ sub with
              asyncStatus := if isErr then .error else .completed,
              status := if isErr then "error" else "completed",
              result := some (extractAgentResult result a),
              completedAt := some now }])) := by
  have hsub1 := subagent_relink_self sub a hid
  have hset := mapSet_of_mapGet_eq _ _ _ hact
  have hdelset := mapDel_mapSet_self st.outputToolIdToAgentId toolId a
  constructor
  · intro hstill
    unfold handleAgentOutputToolResult
    simp only [hlink, hact]
    simp only [hsub1]
    simp only [hset, hrun, hstill, hdelset]
    simp
  · intro hfinal
    have hagent : jsOrStr sub.agentId (some a) = sub.agentId := by
      rw [hid]
      simp only [jsOrStr]
      split <;> rfl
    unfold handleAgentOutputToolResult
    simp only [hlink, hact]
    simp only [hsub1]
    simp only [hset, hrun, hfinal, hdelset, hagent]
    simp

/-- A still-running retrieval result: top-level `not_ready` with an empty
agents map. -/
def c9NotReadyJson : String :=
  "\x7b\"retrieval_status\":\"not_ready\",\"agents\":\x7b\x7d\x7d"

/-- A still-running retrieval result: top-level `status: pending`. -/
def c9PendingJson : String :=
  "\x7b\"status\":\"pending\"\x7d"

/-- A still-running retrieval result: per-agent `RUNNING` status. -/
def c9AgentRunningJson : String :=
  "\x7b\"retrieval_status\":\"success\",\"agents\":\x7b\"agent9\":\x7b\"status\":\"RUNNING\"\x7d\x7d\x7d"

/-- A final retrieval result with the agent's extracted result. -/
def c9SuccessJson : String :=
  "\x7b\"retrieval_status\":\"success\",\"agents\":\x7b\"agent9\":\x7b\"status\":\"completed\",\"result\":\"done!\"\x7d\x7d\x7d"

/-- The C9 scenario state: one subagent moved to `running` under agent id
`agent9`. -/
def c9State0 : AsyncManagerState :=
  (handleTaskToolResult
    ((createAsyncSubagent .empty "task-9" { run_in_background := true }).1)
    "task-9" "\x7b\"agent_id\":\"agent9\"\x7d" false 1).1

/-- The C9 scenario state with the output tool `out-1` linked. -/
def c9Linked : AsyncManagerState :=
  handleAgentOutputToolUse c9State0
    { id := "out-1", name := "AgentOutputTool",
      input := { agent_id := some "agent9" } }

/-- The running subagent of the C9 scenario. -/
def c9RunningSub : SubagentInfo :=
  { id := "task-9", description := "Background task", mode := "async",
    isExpanded := false, status := "running", toolCalls := [],
    asyncStatus := .running, agentId := some "agent9",
    startedAt := some 1, outputToolId := some "out-1" }

/-- Counterexample to C9 as stated: the non-empty, non-JSON payload
`"not ready yet"` is NOT treated as final — the code's string-matching
fallback classifies it as still running (it contains "not ready"), so the
running subagent does not transition to `completed` and stays in the
active-by-agent-id index (only the retrieval-tool linkage is cleared). -/
theorem C9_counterexample :
    isStillRunningResult "not ready yet" false = true
    ∧ ((handleAgentOutputToolResult c9Linked "out-1" "not ready yet" false 2).2.1.map
        SubagentInfo.asyncStatus = some .running)
    ∧ ((getByAgentId
          (handleAgentOutputToolResult c9Linked "out-1" "not ready yet" false 2).1
          "agent9").map SubagentInfo.asyncStatus = some .running)
    ∧ isLinkedAgentOutputTool
        (handleAgentOutputToolResult c9Linked "out-1" "not ready yet" false 2).1
        "out-1" = false := by
  decide

/-- C9 (amended): for a linked running subagent, a result classified as
still running — `not_ready`/`running`/`pending` in the top-level
`retrieval_status`/`status`, such a (lower-cased) status on some agent of
a non-empty `agents` map, or a non-JSON payload containing
`not_ready`/`not ready` — leaves its state unchanged in `running` and only
clears the retrieval-tool linkage; any other non-empty result (including
other unparsable payloads) is final: the subagent transitions to
`completed` (or `error` when the result is flagged as an error) with the
result extracted preferring `agents[agentId].result`, and leaves the
active-by-agent-id index; an error-flagged result is always final. -/
theorem C9_output_retrieval_classification (st : AsyncManagerState)
    (toolId a : String) (sub : SubagentInfo) (result : String) (isErr : Bool)
    (now : Nat)
    (hlink : mapGet st.outputToolIdToAgentId toolId = some a)
    (hact : mapGet st.activeAsyncSubagents a = some sub)
    (hrun : sub.asyncStatus = .running)
    (hid : sub.agentId = some a) :
    (isStillRunningResult result isErr = true →
      handleAgentOutputToolResult st toolId result isErr now
        = ({ st with outputToolIdToAgentId := mapDel st.outputToolIdToAgentId toolId },
           some sub, []))
    ∧ (isStillRunningResult result isErr = false →
      handleAgentOutputToolResult st toolId result isErr now
        = ({ st with
              activeAsyncSubagents := mapDel st.activeAsyncSubagents a,
              outputToolIdToAgentId := mapDel st.outputToolIdToAgentId toolId },
           some { sub with
             asyncStatus := if isErr then .error else .completed,
             status := if isErr then "error" else "completed",
             result := some (extractAgentResult result a),
             completedAt := some now },
           [{ sub with
              asyncStatus := if isErr then .error else .completed,
              status := if isErr then "error" else "completed",
              result := some (extractAgentResult result a),
              completedAt := some now }]))
    ∧ isStillRunningResult c9NotReadyJson false = true
    ∧ isStillRunningResult c9PendingJson false = true
    ∧ isStillRunningResult c9AgentRunningJson false = true
    ∧ isStillRunningResult c9SuccessJson false = false
    ∧ isStillRunningResult "plain text output" false = false
    ∧ isStillRunningResult "not ready yet" false = true
    ∧ (∀ r, isStillRunningResult r true = false)
    ∧ extractAgentResult c9SuccessJson "agent9" = "done!" := by
  have h := handleAgentOutputToolResult_linked st toolId a sub result isErr now
    hlink hact hrun hid
  refine ⟨h.1, h.2, by decide, by decide, by decide, by decide, by decide, by decide,
    ?_, by decide⟩
  intro r
  rfl

/-- Witness for C9 (amended): the concrete success payload finalizes the
linked running subagent of the scenario to `completed` with result
`done!` and removes it from the active index. -/
theorem C9_output_retrieval_classification_witness :
    handleAgentOutputToolResult c9Linked "out-1" c9SuccessJson false 9
      = ({ c9Linked with
            activeAsyncSubagents := mapDel c9Linked.activeAsyncSubagents "agent9",
            outputToolIdToAgentId := mapDel c9Linked.outputToolIdToAgentId "out-1" },
         some { c9RunningSub with
           asyncStatus := .completed, status := "completed",
           result := some (extractAgentResult c9SuccessJson "agent9"),
           completedAt := some 9 },
         [{ c9RunningSub with
            asyncStatus := .completed, status := "completed",
            result := some (extractAgentResult c9SuccessJson "agent9"),
            completedAt := some 9 }])
    ∧ extractAgentResult c9SuccessJson "agent9" = "done!" :=
  ⟨(C9_output_retrieval_classification c9Linked "out-1" "agent9" c9RunningSub
      c9SuccessJson false 9 (by decide) (by decide) rfl rfl).2.1 (by decide),
   by decide⟩

/-! ## Claim C10 -/

/-- Invariant of the active-by-agent-id map: every stored subagent is
`running` and carries its map key as agent id. -/
def ActiveInv (m : List (String × SubagentInfo)) : Prop :=
  ∀ k s, (k, s) ∈ m → s.asyncStatus = .running ∧ s.agentId = some k

/-- Invariant of the pending-by-task-id map: every stored subagent is
`pending`. -/
def PendingInv (m : List (String × SubagentInfo)) : Prop :=
  ∀ k s, (k, s) ∈ m → s.asyncStatus = .pending

/-- The manager invariant (claim C10). -/
def ManagerInv (st : AsyncManagerState) : Prop :=
  ActiveInv st.activeAsyncSubagents ∧ PendingInv st.pendingAsyncSubagents

theorem activeInv_set {m : List (String × SubagentInfo)} (h : ActiveInv m)
    {b : String} {s' : SubagentInfo} (hs : s'.asyncStatus = .running)
    (hid : s'.agentId = some b) : ActiveInv (mapSet m b s') := by
  intro k s hmem
  rcases mem_mapSet m b s' k s hmem with ⟨hk, hv⟩ | hmem2
  · subst hk
    subst hv
    exact ⟨hs, hid⟩
  · exact h k s hmem2

theorem activeInv_del {m : List (String × SubagentInfo)} (h : ActiveInv m)
    (b : String) : ActiveInv (mapDel m b) := by
  intro k s hmem
  exact h k s (mem_mapDel m b (k, s) hmem)

theorem pendingInv_set {m : List (String × SubagentInfo)} (h : PendingInv m)
    {b : String} {s' : SubagentInfo} (hs : s'.asyncStatus = .pending) :
    PendingInv (mapSet m b s') := by
  intro k s hmem
  rcases mem_mapSet m b s' k s hmem with ⟨_, hv⟩ | hmem2
  · subst hv
    exact hs
  · exact h k s hmem2

theorem pendingInv_del {m : List (String × SubagentInfo)} (h : PendingInv m)
    (b : String) : PendingInv (mapDel m b) := by
  intro k s hmem
  exact h k s (mem_mapDel m b (k, s) hmem)

theorem activeInv_nil : ActiveInv [] := by
  intro k s hmem
  simp at hmem

theorem pendingInv_nil : PendingInv [] := by
  intro k s hmem
  simp at hmem

theorem jsOrStr_self (b : String) : jsOrStr (some b) (some b) = some b := by
  simp only [jsOrStr]
  split <;> rfl

theorem managerInv_empty : ManagerInv .empty :=
  ⟨activeInv_nil, pendingInv_nil⟩

theorem managerInv_create (st : AsyncManagerState) (taskId : String)
    (input : ToolInput) (h : ManagerInv st) :
    ManagerInv (createAsyncSubagent st taskId input).1 := by
  refine ⟨h.1, ?_⟩
  unfold createAsyncSubagent
  exact pendingInv_set h.2 rfl

theorem managerInv_taskResult (st : AsyncManagerState) (taskId result : String)
    (isErr : Bool) (now : Nat) (h : ManagerInv st) :
    ManagerInv (handleTaskToolResult st taskId result isErr now).1 := by
  unfold handleTaskToolResult
  split
  · exact h
  · split
    · exact ⟨h.1, pendingInv_del h.2 taskId⟩
    · split
      · exact ⟨h.1, pendingInv_del h.2 taskId⟩
      · exact ⟨activeInv_set h.1 rfl rfl, pendingInv_del h.2 taskId⟩

theorem managerInv_outputUse (st : AsyncManagerState) (tc : ToolCallInfo)
    (h : ManagerInv st) : ManagerInv (handleAgentOutputToolUse st tc) := by
  unfold handleAgentOutputToolUse
  split
  · exact h
  · split
    · exact h
    · rename_i sub hg
      have hsub := h.1 _ sub (mapGet_mem _ _ _ hg)
      exact ⟨activeInv_set h.1 hsub.1 hsub.2, h.2⟩

theorem managerInv_outputResult (st : AsyncManagerState) (toolId result : String)
    (isErr : Bool) (now : Nat) (h : ManagerInv st) :
    ManagerInv (handleAgentOutputToolResult st toolId result isErr now).1 := by
  cases h0 : mapGet st.outputToolIdToAgentId toolId with
  | none =>
    cases hi : inferAgentIdFromResult result with
    | none =>
      simp only [handleAgentOutputToolResult, h0, hi]
      exact h
    | some inf =>
      cases hg : mapGet st.activeAsyncSubagents inf with
      | none =>
        simp only [handleAgentOutputToolResult, h0, hi, hg]
        exact h
      | some s =>
        simp only [handleAgentOutputToolResult, h0, hi, hg]
        have hsub := h.1 _ s (mapGet_mem _ _ _ hg)
        have hinv1 : ActiveInv (mapSet st.activeAsyncSubagents inf
            { s with agentId := jsOrStr s.agentId (some inf) }) :=
          activeInv_set h.1 hsub.1 (by simp only [hsub.2, jsOrStr_self])
        split
        · exact ⟨hinv1, h.2⟩
        · split
          · exact ⟨hinv1, h.2⟩
          · exact ⟨activeInv_del hinv1 _, h.2⟩
  | some a0 =>
    cases hg : mapGet st.activeAsyncSubagents a0 with
    | none =>
      cases hi : inferAgentIdFromResult result with
      | none =>
        simp only [handleAgentOutputToolResult, h0, hi, hg]
        exact h
      | some inf =>
        cases hg2 : mapGet st.activeAsyncSubagents inf with
        | none =>
          simp only [handleAgentOutputToolResult, h0, hi, hg, hg2]
          exact h
        | some s =>
          simp only [handleAgentOutputToolResult, h0, hi, hg, hg2]
          have hsub := h.1 _ s (mapGet_mem _ _ _ hg2)
          have hinv1 : ActiveInv (mapSet st.activeAsyncSubagents inf
              { s with agentId := jsOrStr s.agentId (some inf) }) :=
            activeInv_set h.1 hsub.1 (by simp only [hsub.2, jsOrStr_self])
          split
          · exact ⟨hinv1, h.2⟩
          · split
            · exact ⟨hinv1, h.2⟩
            · exact ⟨activeInv_del hinv1 _, h.2⟩
    | some s =>
      simp only [handleAgentOutputToolResult, h0, hg]
      have hsub := h.1 _ s (mapGet_mem _ _ _ hg)
      have hinv1 : ActiveInv (mapSet st.activeAsyncSubagents a0
          { s with agentId := jsOrStr s.agentId (some a0) }) :=
        activeInv_set h.1 hsub.1 (by simp only [hsub.2, jsOrStr_self])
      split
      · exact ⟨hinv1, h.2⟩
      · split
        · exact ⟨hinv1, h.2⟩
        · exact ⟨activeInv_del hinv1 _, h.2⟩

theorem managerInv_orphanAll (st : AsyncManagerState) (now : Nat) :
    ManagerInv (orphanAllActive st now).1 :=
  ⟨activeInv_nil, pendingInv_nil⟩

theorem managerInv_clear (st : AsyncManagerState) :
    ManagerInv (clearManager st) :=
  ⟨activeInv_nil, pendingInv_nil⟩

/-- C10: between public operations every subagent stored in the
active-by-agent-id map is `running` with its map key as agent id and every
subagent in the pending map is `pending`; the invariant holds initially
and is preserved by every public operation, so `getByAgentId` can only
ever return a `running` subagent (never a terminal or orphaned one) and
`hasActiveAsync` only counts pending/running subagents. -/
theorem C10_manager_invariant :
    ManagerInv .empty
    ∧ (∀ st taskId input, ManagerInv st →
        ManagerInv (createAsyncSubagent st taskId input).1)
    ∧ (∀ st taskId result isErr now, ManagerInv st →
        ManagerInv (handleTaskToolResult st taskId result isErr now).1)
    ∧ (∀ st tc, ManagerInv st → ManagerInv (handleAgentOutputToolUse st tc))
    ∧ (∀ st toolId result isErr now, ManagerInv st →
        ManagerInv (handleAgentOutputToolResult st toolId result isErr now).1)
    ∧ (∀ st now, ManagerInv (orphanAllActive st now).1)
    ∧ (∀ st, ManagerInv (clearManager st))
    ∧ (∀ st a s, ManagerInv st → getByAgentId st a = some s →
        s.asyncStatus = .running ∧ s.agentId = some a)
    ∧ (∀ st, ManagerInv st → hasActiveAsync st = true →
        (∃ k s, (k, s) ∈ st.pendingAsyncSubagents ∧ s.asyncStatus = .pending)
        ∨ (∃ k s, (k, s) ∈ st.activeAsyncSubagents ∧ s.asyncStatus = .running)) := by
  refine ⟨managerInv_empty, managerInv_create, managerInv_taskResult,
    managerInv_outputUse, managerInv_outputResult,
    managerInv_orphanAll, managerInv_clear, ?_, ?_⟩
  · intro st a s hInv hget
    exact hInv.1 a s (mapGet_mem _ _ _ hget)
  · intro st hInv hact
    unfold hasActiveAsync at hact
    by_cases hp : st.pendingAsyncSubagents = []
    · have ha : st.activeAsyncSubagents ≠ [] := by
        intro hnil
        rw [hp, hnil] at hact
        simp at hact
      obtain ⟨q, hq⟩ := List.exists_mem_of_ne_nil _ ha
      exact Or.inr ⟨q.1, q.2, hq, (hInv.1 q.1 q.2 hq).1⟩
    · obtain ⟨p, hp2⟩ := List.exists_mem_of_ne_nil _ hp
      exact Or.inl ⟨p.1, p.2, hp2, hInv.2 p.1 p.2 hp2⟩

/-- Witness for C10: the invariant holds for the concrete state reached by
creating a task and moving it to `running`, and `getByAgentId` on it
returns a `running` subagent. -/
theorem C10_manager_invariant_witness :
    ManagerInv c9State0
    ∧ ((getByAgentId c9State0 "agent9").map SubagentInfo.asyncStatus
        = some .running) :=
  ⟨C10_manager_invariant.2.2.1 _ "task-9" "\x7b\"agent_id\":\"agent9\"\x7d" false 1
    (C10_manager_invariant.2.1 .empty "task-9" { run_in_background := true }
      C10_manager_invariant.1),
   by decide⟩

end Claudian
